import Mathlib

/-!
Verification of the P2P-CI registry/peer system.

Shallow embedding of `src/protocol.py`, `src/server.py` and the transfer
client of `src/peer.py`.  Python strings are modelled as `List Char`;
Python `str.split`, `str.strip` and `int()` are modelled explicitly below.
-/

set_option maxHeartbeats 1000000

abbrev Str := List Char

/-- Turn a Lean string literal into the `List Char` model of a Python string. -/
def sl (s : String) : Str := s.data

/-- `str.split("\r\n")`: split at every (leftmost, non-overlapping) CRLF. -/
def splitCRLF : Str → List Str
  | [] => [[]]
  | [c] => [[c]]
  | c :: d :: rest =>
    if c = '\r' ∧ d = '\n' then [] :: splitCRLF rest
    else
      match splitCRLF (d :: rest) with
      | [] => [[c]]
      | l :: ls => (c :: l) :: ls

/-- `l` contains no CRLF pair (so `splitCRLF` treats it as a single line). -/
def noCRLF : Str → Bool
  | [] => true
  | [_] => true
  | c :: d :: rest => if c = '\r' ∧ d = '\n' then false else noCRLF (d :: rest)

/-- Auxiliary for `splitWs`: `acc` is the current word, reversed. -/
def splitWsAux : Str → Str → List Str
  | [], acc => if acc = [] then [] else [acc.reverse]
  | c :: cs, acc =>
    if c.isWhitespace then
      if acc = [] then splitWsAux cs [] else acc.reverse :: splitWsAux cs []
    else splitWsAux cs (c :: acc)

/-- `str.split()` with no argument: split on whitespace runs, dropping empties. -/
def splitWs (l : Str) : List Str := splitWsAux l []

/-- `str.strip()`: drop whitespace from both ends. -/
def pyStrip (l : Str) : Str :=
  ((l.dropWhile Char.isWhitespace).reverse.dropWhile Char.isWhitespace).reverse

/-- `str.split(sep, 1)` at the first occurrence of a single character;
`none` when the character does not occur (Python: `sep not in s`). -/
def pySplitFirst (sep : Char) : Str → Option (Str × Str)
  | [] => none
  | c :: cs =>
    if c = sep then some ([], cs)
    else
      match pySplitFirst sep cs with
      | none => none
      | some (k, v) => some (c :: k, v)

def digitVal (c : Char) : Nat := c.toNat - 48

def digitsToNat (l : Str) : Nat := l.foldl (fun acc c => acc * 10 + digitVal c) 0

def isDigitStr (l : Str) : Bool := l ≠ [] && l.all Char.isDigit

/-- Python `int(s)`: strip surrounding whitespace, optional sign, decimal
digits; `none` models `ValueError`.  (Digit-group underscores, accepted by
CPython, are not modelled; no theorem below depends on them.) -/
def pyIntCore : Str → Option Int
  | [] => none
  | c :: rest =>
    if c = '+' then
      if isDigitStr rest then some (Int.ofNat (digitsToNat rest)) else none
    else if c = '-' then
      if isDigitStr rest then some (-(Int.ofNat (digitsToNat rest))) else none
    else if isDigitStr (c :: rest) then some (Int.ofNat (digitsToNat (c :: rest)))
    else none

def pyInt (s : Str) : Option Int := pyIntCore (pyStrip s)

def digitChar (n : Nat) : Char :=
  if n = 0 then '0' else if n = 1 then '1' else if n = 2 then '2'
  else if n = 3 then '3' else if n = 4 then '4' else if n = 5 then '5'
  else if n = 6 then '6' else if n = 7 then '7' else if n = 8 then '8' else '9'

/-- Decimal digits of `n`, most significant first; fuel-indexed so that it is
structurally recursive (any `fuel > n` gives the true digit string). -/
def natDigitsAux : Nat → Nat → Str
  | 0, _ => []
  | fuel + 1, n =>
    if n < 10 then [digitChar n]
    else natDigitsAux fuel (n / 10) ++ [digitChar (n % 10)]

def natDigits (n : Nat) : Str := natDigitsAux (n + 1) n

/-- Python `str(n)` for an `int` (as interpolated by an f-string). -/
def intRepr (n : Int) : Str :=
  if n < 0 then '-' :: natDigits n.natAbs else natDigits n.toNat

/-- `" ".join(ws)`. -/
def wordsJoin : List Str → Str
  | [] => []
  | [w] => w
  | w :: ws => w ++ ' ' :: wordsJoin ws

/-- Lookup in a Python dict modelled as an association list (keys unique,
maintained by `dictSet`/filtering). -/
def dictGet (d : List (Str × α)) (k : Str) : Option α :=
  (d.find? (fun p => p.1 = k)).map (fun p => p.2)

/-- `d[k] = v` on a Python dict: overwrite in place, else append. -/
def dictSet (d : List (Str × α)) (k : Str) (v : α) : List (Str × α) :=
  if d.any (fun p => p.1 = k) then
    d.map (fun p => if p.1 = k then (k, v) else p)
  else d ++ [(k, v)]

-- Constants from `src/constants.py`.

def PROTOCOL_VERSION : Str := sl "P2P-CI/1.0"
def METHOD_ADD : Str := sl "ADD"
def METHOD_LOOKUP : Str := sl "LOOKUP"
def METHOD_LIST : Str := sl "LIST"
def METHOD_GET : Str := sl "GET"
def HEADER_HOST : Str := sl "Host"
def HEADER_PORT : Str := sl "Port"
def HEADER_TITLE : Str := sl "Title"
def STATUS_OK : Int := 200
def STATUS_BAD_REQUEST : Int := 400
def STATUS_NOT_FOUND : Int := 404
def STATUS_VERSION_NOT_SUPPORTED : Int := 505

/-- Modelled from the spec: `RFC_ALL` is imported by `src/protocol.py` from
`src/constants.py` but is absent from the `constants.py` in the sources; the
spec fixes the Enumerate sentinel to the literal "ALL" (grammar
`ENUMERATE ALL <ver>`, tests format the first line as `LIST ALL P2P-CI/1.0`). -/
def RFC_ALL : Str := sl "ALL"

/-- Modelled from the spec: `KEYWORD_RFC` is likewise absent from the
`constants.py` in the sources; the spec's grammar and the tests use the
document keyword "RFC" (`ADD RFC 123 P2P-CI/1.0`). -/
def KEYWORD_RFC : Str := sl "RFC"

def CRLF : Str := ['\r', '\n']

def STATUS_PHRASES (code : Int) : Str :=
  if code = 200 then sl "OK"
  else if code = 400 then sl "Bad Request"
  else if code = 404 then sl "Not Found"
  else if code = 505 then sl "P2P-CI Version Not Supported"
  else sl "Unknown"

-- `src/protocol.py`

/-- The `rfc_number` field of a parsed request: an `int` for the 4-token
forms, the sentinel string `RFC_ALL` for `LIST`. -/
inductive RfcNumber where
  | intVal : Int → RfcNumber
  | strVal : Str → RfcNumber
deriving DecidableEq

structure P2SRequest where
  method : Str
  rfc_number : RfcNumber
  version : Str
  host : Str
  port : Int
  title : Str
deriving DecidableEq

abbrev Headers := List (Str × Str)

/-- Loop of `_split_message` over the lines after the first: collect headers
until the first empty line; a line with no `:` fails the whole split. -/
def headersLoop : List Str → Headers → Option Headers
  | [], acc => some acc
  | line :: rest, acc =>
    if line = [] then some acc
    else
      match pySplitFirst ':' line with
      | none => none
      | some (k, v) => headersLoop rest (dictSet acc (pyStrip k) (pyStrip v))

/-- `_split_message`: first line (stripped) and headers dict, or `None`. -/
def split_message (text : Str) : Option (Str × Headers) :=
  match splitCRLF text with
  | [] => none
  | l0 :: rest =>
    if pyStrip l0 = [] then none
    else
      match headersLoop rest [] with
      | none => none
      | some headers => some (pyStrip l0, headers)

/-- Dispatch of `parse_p2s_request` on the token list of the first line.
A 3-token first line whose first token is not `LIST` falls through the
`len(parts) == 4` test and returns `None`, exactly as in the source. -/
def parse_tokens : List Str → Headers → Option P2SRequest
  | [method, who, version], headers =>
    if method = METHOD_LIST then
      if who ≠ RFC_ALL then none
      else
        match dictGet headers HEADER_HOST, dictGet headers HEADER_PORT with
        | some hostv, some portv =>
          match pyInt portv with
          | none => none
          | some port =>
            some { method := method, rfc_number := .strVal RFC_ALL,
                   version := version, host := hostv, port := port,
                   title := (dictGet headers HEADER_TITLE).getD [] }
        | _, _ => none
    else none
  | [method, rfc_kw, rfc_num, version], headers =>
    if rfc_kw ≠ KEYWORD_RFC then none
    else
      match pyInt rfc_num with
      | none => none
      | some rfc_number =>
        match dictGet headers HEADER_HOST, dictGet headers HEADER_PORT with
        | some hostv, some portv =>
          match pyInt portv with
          | none => none
          | some port =>
            some { method := method, rfc_number := .intVal rfc_number,
                   version := version, host := hostv, port := port,
                   title := (dictGet headers HEADER_TITLE).getD [] }
        | _, _ => none
  | _, _ => none

/-- Body of `parse_p2s_request` after `_split_message` succeeded. -/
def parse_from (first : Str) (headers : Headers) : Option P2SRequest :=
  parse_tokens (splitWs first) headers

def parse_p2s_request (data : Str) : Option P2SRequest :=
  match split_message data with
  | none => none
  | some (first, headers) => parse_from first headers

def renderRfcNumber : RfcNumber → Str
  | .intVal n => intRepr n
  | .strVal s => s

/-- `format_p2s_request(method, rfc_number, host, port, title="")`. -/
def format_p2s_request (method : Str) (rfc_number : RfcNumber)
    (host : Str) (port : Int) (title : Str) : Str :=
  (if method = METHOD_LIST then
    METHOD_LIST ++ ' ' :: RFC_ALL ++ ' ' :: PROTOCOL_VERSION ++ CRLF
  else
    method ++ ' ' :: KEYWORD_RFC ++ ' ' :: renderRfcNumber rfc_number ++
      ' ' :: PROTOCOL_VERSION ++ CRLF) ++
  HEADER_HOST ++ ':' :: ' ' :: host ++ CRLF ++
  HEADER_PORT ++ ':' :: ' ' :: intRepr port ++ CRLF ++
  (if method = METHOD_ADD ∨ method = METHOD_LOOKUP then
    HEADER_TITLE ++ ':' :: ' ' :: title ++ CRLF
  else []) ++ CRLF

/-- A record `(rfc_number, title, hostname, port)` as stored in the server
index and carried by responses. -/
structure RfcRecord where
  rfc : Int
  title : Str
  host : Str
  port : Int
deriving DecidableEq

/-- `format_p2s_response(status_code, rfc_records)`. -/
def format_p2s_response (status_code : Int) (rfc_records : List RfcRecord) : Str :=
  PROTOCOL_VERSION ++ ' ' :: intRepr status_code ++ ' ' ::
    STATUS_PHRASES status_code ++ CRLF ++ CRLF ++
  (rfc_records.foldr
    (fun r acc =>
      intRepr r.rfc ++ ' ' :: r.title ++ ' ' :: r.host ++ ' ' ::
        intRepr r.port ++ CRLF ++ acc)
    []) ++ CRLF

/-- Result of running a piece of Python code that may raise an uncaught
`ValueError`. -/
inductive PyResult (α : Type) where
  | ok : α → PyResult α
  | valueError : PyResult α
deriving DecidableEq

/-- Record loop of `parse_p2s_response`.  A line of at least three tokens
whose first or last token is not an integer makes the bare `int()` raise
`ValueError`, modelled as `.valueError`. -/
def recordsLoop : List Str → List RfcRecord → PyResult (List RfcRecord)
  | [], acc => .ok acc
  | line :: rest, acc =>
    if line = [] then .ok acc
    else
      let parts := splitWs line
      if parts.length < 3 then recordsLoop rest acc
      else
        match pyInt (parts.headD []), pyInt (parts.getLastD []) with
        | some rfc, some port =>
          recordsLoop rest
            (acc ++ [{ rfc := rfc,
                       title := wordsJoin ((parts.drop 1).dropLast.dropLast),
                       host := parts.dropLast.getLastD [], port := port }])
        | _, _ => .valueError

/-- `parse_p2s_response(text)`, returning `(status, records)`; `.valueError`
models the uncaught `ValueError` of the record loop. -/
def parse_p2s_response (text : Str) : PyResult (Option Int × List RfcRecord) :=
  match splitCRLF text with
  | [] => .ok (none, [])
  | l0 :: rest =>
    if pyStrip l0 = [] then .ok (none, [])
    else
      let status_line := splitWs l0
      if status_line.length < 2 then .ok (none, [])
      else
        match pyInt (status_line.getD 1 []) with
        | none => .ok (none, [])
        | some status_code =>
          match (l0 :: rest).findIdx? (fun l => l = []) with
          | none => .ok (some status_code, [])
          | some blank_idx =>
            match recordsLoop ((l0 :: rest).drop (blank_idx + 1)) [] with
            | .ok records => .ok (some status_code, records)
            | .valueError => .valueError

example : splitWs (sl "ADD RFC 12 P2P-CI/1.0") =
    [sl "ADD", sl "RFC", sl "12", sl "P2P-CI/1.0"] := by decide

example : parse_p2s_request
    (sl "ADD RFC 123 P2P-CI/1.0\r\nHost: h.example\r\nPort: 5678\r\nTitle: A Title\r\n\r\n") =
    some { method := sl "ADD", rfc_number := .intVal 123, version := sl "P2P-CI/1.0",
           host := sl "h.example", port := 5678, title := sl "A Title" } := by decide

example : parse_p2s_response (sl "P2P-CI/1.0 200 OK\r\n\r\n123 Test RFC h1 5001\r\n\r\n") =
    .ok (some 200, [{ rfc := 123, title := sl "Test RFC", host := sl "h1", port := 5001 }]) := by
  decide

-- `src/server.py`

/-- The in-memory database of the registry: `peers` (hostname → upload port)
and `index` (newest-first record list). -/
structure Store where
  peers : List (Str × Int)
  index : List RfcRecord
deriving DecidableEq

def emptyStore : Store := { peers := [], index := [] }

/-- `_remove_all_for_host(hostname)`.  The argument is `announced_host`,
which may still be `None`; `if not hostname: return` catches both `None`
and the empty string. -/
def remove_all_for_host (st : Store) (hostname : Option Str) : Store :=
  match hostname with
  | none => st
  | some h =>
    if h = [] then st
    else
      { peers := st.peers.filter (fun p => ¬ p.1 = h),
        index := st.index.filter (fun rec => ¬ rec.host = h) }

/-- The `METHOD_ADD` branch of `_handle_peer`: upsert `peers[host] = port`,
drop any record with the same `(rfc_number, host)`, prepend the new record. -/
def applyAdd (st : Store) (rfc_number : Int) (title host : Str) (port : Int) : Store :=
  { peers := dictSet st.peers host port,
    index := { rfc := rfc_number, title := title, host := host, port := port } ::
      st.index.filter (fun rec => ¬ (rec.rfc = rfc_number ∧ rec.host = host)) }

/-- Per-connection state of `_handle_peer`: `announced_host`/`announced_port`
start as `None` and are assigned on every successfully parsed,
version-matching request. -/
structure Session where
  announced_host : Option Str
  announced_port : Option Int
deriving DecidableEq

structure HandlerState where
  store : Store
  session : Session
deriving DecidableEq

def initialSession : Session := { announced_host := none, announced_port := none }

/-- `req["rfc_number"]` read as an `int`.  `parse_p2s_request` returns the
string sentinel only for method `LIST`, whose handler branch never reads the
field, so the default of the sentinel case is unreachable from parsed input. -/
def rfcAsInt : RfcNumber → Int
  | .intVal n => n
  | .strVal _ => 0

/-- Dispatch of `_handle_peer` on the outcome of `parse_p2s_request`. -/
def handle_parsed (hs : HandlerState) :
    Option P2SRequest → HandlerState × (Int × List RfcRecord)
  | none => (hs, (STATUS_BAD_REQUEST, []))
  | some req =>
    if req.version ≠ PROTOCOL_VERSION then (hs, (STATUS_VERSION_NOT_SUPPORTED, []))
    else
      -- `announced_host = host; announced_port = port` happens here, before
      -- the dispatch on the method, for every version-matching request.
      if req.method = METHOD_ADD then
        ({ store := applyAdd hs.store (rfcAsInt req.rfc_number) req.title req.host req.port,
           session := { announced_host := some req.host, announced_port := some req.port } },
         (STATUS_OK, [{ rfc := rfcAsInt req.rfc_number, title := req.title,
                        host := req.host, port := req.port }]))
      else if req.method = METHOD_LOOKUP then
        if hs.store.index.filter (fun rec => rec.rfc = rfcAsInt req.rfc_number) = [] then
          ({ store := hs.store,
             session := { announced_host := some req.host, announced_port := some req.port } },
           (STATUS_NOT_FOUND, []))
        else
          ({ store := hs.store,
             session := { announced_host := some req.host, announced_port := some req.port } },
           (STATUS_OK, hs.store.index.filter (fun rec => rec.rfc = rfcAsInt req.rfc_number)))
      else if req.method = METHOD_LIST then
        ({ store := hs.store,
           session := { announced_host := some req.host, announced_port := some req.port } },
         (STATUS_OK, hs.store.index))
      else
        ({ store := hs.store,
           session := { announced_host := some req.host, announced_port := some req.port } },
         (STATUS_BAD_REQUEST, []))

/-- One iteration of the `while True` loop of `_handle_peer` on an already
framed message: returns the new handler state and the `(status, records)`
pair passed to `format_p2s_response` for the reply. -/
def handle_message (hs : HandlerState) (msg : Str) : HandlerState × (Int × List RfcRecord) :=
  handle_parsed hs (parse_p2s_request msg)

/-- The session loop over a list of framed incoming messages (the connection
stays open: every message is answered and processing continues). -/
def run_session (hs : HandlerState) : List Str → HandlerState × List (Int × List RfcRecord)
  | [] => (hs, [])
  | msg :: rest =>
    let next := handle_message hs msg
    let fin := run_session next.1 rest
    (fin.1, next.2 :: fin.2)

/-- The `finally` block of `_handle_peer`: purge using the session's last
remembered announced host. -/
def session_teardown (hs : HandlerState) : Store :=
  remove_all_for_host hs.store hs.session.announced_host

/-- An announce operation as issued to the Store (arguments of the ADD branch). -/
structure AnnounceOp where
  rfc : Int
  title : Str
  host : Str
  port : Int
deriving DecidableEq

def AnnounceOp.toRecord (op : AnnounceOp) : RfcRecord :=
  { rfc := op.rfc, title := op.title, host := op.host, port := op.port }

def applyAnnounceOp (st : Store) (op : AnnounceOp) : Store :=
  applyAdd st op.rfc op.title op.host op.port

/-- A sequence of announces applied to the initially empty Store. -/
def applyAnnounces (ops : List AnnounceOp) : Store :=
  ops.foldl applyAnnounceOp emptyStore

/-- Announce and purge operations on the Store (§4.3 of the spec). -/
inductive StoreOp where
  | announce : Int → Str → Str → Int → StoreOp
  | purge : Str → StoreOp
deriving DecidableEq

def applyStoreOp (st : Store) : StoreOp → Store
  | .announce rfc title host port => applyAdd st rfc title host port
  | .purge host => remove_all_for_host st (some host)

def applyStoreOps (ops : List StoreOp) : Store :=
  ops.foldl applyStoreOp emptyStore

-- `download_rfc` of `src/peer.py`.
-- The TCP byte stream is modelled as the list of chunks successive `recv`
-- calls return; an exhausted list or an empty chunk models a closed stream.

abbrev Bytes := List Nat

def MARKER : Bytes := [13, 10, 13, 10]

/-- `l` starts with `pat`. -/
def bytesStartWith : Bytes → Bytes → Bool
  | _, [] => true
  | [], _ :: _ => false
  | a :: as, b :: bs => a = b && bytesStartWith as bs

/-- Python `pat in l` for byte strings (contiguous subsequence test). -/
def bytesContain (pat : Bytes) : Bytes → Bool
  | [] => pat = []
  | b :: bs => bytesStartWith (b :: bs) pat || bytesContain pat bs

/-- `recv_until_marker(sock)`: accumulate chunks until the CRLFCRLF marker is
inside the buffer; returns the buffer and the unread remainder of the
stream, or `none` when the connection closes first. -/
def recv_until_marker : List Bytes → Bytes → Option (Bytes × List Bytes)
  | [], _ => none
  | chunk :: rest, buf =>
    if chunk = [] then none
    else
      let buf' := buf ++ chunk
      if bytesContain MARKER buf' then some (buf', rest) else recv_until_marker rest buf'

/-- `buf.split(b"\r\n\r\n", 1)`: split at the first occurrence of the marker. -/
def splitAtMarker : Bytes → Option (Bytes × Bytes)
  | [] => none
  | b :: bs =>
    if [b] ++ bs.take 3 = MARKER then some ([], bs.drop 3)
    else
      match splitAtMarker bs with
      | none => none
      | some (l, r) => some (b :: l, r)

/-- `bytes.decode("utf-8", errors="replace")`, modelled byte-per-char; exact
for ASCII bytes (< 128), which is all the transfer-protocol headers use. -/
def decodeBytes (bs : Bytes) : Str := bs.map (fun b => Char.ofNat b)

/-- The header-scanning loop of `download_rfc`: every line containing `:`
contributes a header, lines without `:` are skipped (no early stop here). -/
def downloadHeaders : List Str → Headers → Headers
  | [], acc => acc
  | line :: rest, acc =>
    match pySplitFirst ':' line with
    | none => downloadHeaders rest acc
    | some (k, v) => downloadHeaders rest (dictSet acc (pyStrip k) (pyStrip v))

/-- `while len(data) < length:` read loop of `download_rfc`. -/
def read_payload : List Bytes → Bytes → Int → Bytes
  | [], data, _ => data
  | chunk :: rest, data, length =>
    if (data.length : Int) < length then
      if chunk = [] then data else read_payload rest (data ++ chunk) length
    else data

/-- Python `data[:n]` for an `int` `n` (negative `n` counts from the end). -/
def pyTake (n : Int) (l : Bytes) : Bytes :=
  if 0 ≤ n then l.take n.toNat else l.take (l.length - n.natAbs)

/-- Outcome of `download_rfc`: the returned pair and whether (and with what
contents) the destination file was written. -/
structure DownloadResult where
  ok : Bool
  payload : Bytes
  written : Option Bytes
deriving DecidableEq

/-- The status code `download_rfc` extracts from the stream, if any
(`none` when framing or the status line fails). -/
def download_status (stream : List Bytes) : Option Int :=
  match recv_until_marker stream [] with
  | none => none
  | some (buf, _) =>
    match splitAtMarker buf with
    | none => none
    | some (header_bytes, _) =>
      let header_lines := splitCRLF (decodeBytes header_bytes)
      let status_parts := splitWs (header_lines.headD [])
      if status_parts.length < 2 then none
      else pyInt (status_parts.getD 1 [])

/-- `download_rfc` after the request was sent: framing, status check, header
scan, payload read, file write.  `.valueError` models the uncaught
exception of `int(headers.get("Content-Length", "0"))`. -/
def download_rfc (stream : List Bytes) : PyResult DownloadResult :=
  match recv_until_marker stream [] with
  | none => .ok { ok := false, payload := [], written := none }
  | some (buf, streamRest) =>
    match splitAtMarker buf with
    | none => .ok { ok := false, payload := [], written := none }
    | some (header_bytes, rest) =>
      let header_lines := splitCRLF (decodeBytes header_bytes)
      let status_parts := splitWs (header_lines.headD [])
      if status_parts.length < 2 then .ok { ok := false, payload := [], written := none }
      else
        match pyInt (status_parts.getD 1 []) with
        | none => .ok { ok := false, payload := [], written := none }
        | some status_code =>
          if status_code ≠ 200 then .ok { ok := false, payload := [], written := none }
          else
            let headers := downloadHeaders (header_lines.drop 1) []
            match pyInt ((dictGet headers (sl "Content-Length")).getD (sl "0")) with
            | none => .valueError
            | some length =>
              let data := pyTake length (read_payload streamRest rest length)
              .ok { ok := true, payload := data, written := some data }

example :
    download_rfc [[80, 50, 80, 45, 67, 73, 47, 49, 46, 48, 32, 52, 48, 52, 32, 78],
                  [13, 10, 13, 10]] =
      .ok { ok := false, payload := [], written := none } := by decide

-- Helper lemmas about the string model.

lemma digitChar_props {n : Nat} (h : n < 10) :
    (digitChar n).isDigit = true ∧ (digitChar n).isWhitespace = false ∧
    ¬ digitChar n = '+' ∧ ¬ digitChar n = '-' := by
  interval_cases n <;> exact (by decide)

lemma digitVal_digitChar {n : Nat} (h : n < 10) : digitVal (digitChar n) = n := by
  interval_cases n <;> decide

lemma digitsToNat_append (a : Str) (c : Char) :
    digitsToNat (a ++ [c]) = 10 * digitsToNat a + digitVal c := by
  simp only [digitsToNat, List.foldl_append, List.foldl]
  omega

/-- A character produced by `natDigitsAux`: a decimal digit with the side
facts used below. -/
def goodDigit (c : Char) : Prop :=
  c.isDigit = true ∧ c.isWhitespace = false ∧ ¬ c = '+' ∧ ¬ c = '-'

lemma natDigitsAux_spec :
    ∀ fuel n, n < fuel →
      digitsToNat (natDigitsAux fuel n) = n ∧ natDigitsAux fuel n ≠ [] ∧
      ∀ c ∈ natDigitsAux fuel n, goodDigit c := by
  intro fuel
  induction fuel with
  | zero => intro n h; omega
  | succ f ih =>
    intro n h
    by_cases h10 : n < 10
    · refine ⟨?_, ?_, ?_⟩
      · simp [natDigitsAux, h10, digitsToNat, digitVal_digitChar h10]
      · simp [natDigitsAux, h10]
      · intro c hc
        simp only [natDigitsAux, if_pos h10, List.mem_singleton] at hc
        rw [hc]
        exact digitChar_props h10
    · have hd : n / 10 < n := Nat.div_lt_self (by omega) (by omega)
      have hrec := ih (n / 10) (by omega)
      have hmod : n % 10 < 10 := Nat.mod_lt _ (by omega)
      refine ⟨?_, ?_, ?_⟩
      · simp only [natDigitsAux, if_neg h10, digitsToNat_append, hrec.1,
          digitVal_digitChar hmod]
        omega
      · simp [natDigitsAux, if_neg h10]
      · intro c hc
        simp only [natDigitsAux, if_neg h10, List.mem_append, List.mem_singleton] at hc
        rcases hc with hc | hc
        · exact hrec.2.2 c hc
        · rw [hc]; exact digitChar_props hmod

lemma natDigits_digitsToNat (n : Nat) : digitsToNat (natDigits n) = n :=
  (natDigitsAux_spec (n + 1) n (by omega)).1

lemma natDigits_ne_nil (n : Nat) : natDigits n ≠ [] :=
  (natDigitsAux_spec (n + 1) n (by omega)).2.1

lemma natDigits_good (n : Nat) : ∀ c ∈ natDigits n, goodDigit c :=
  (natDigitsAux_spec (n + 1) n (by omega)).2.2

lemma isDigitStr_natDigits (n : Nat) : isDigitStr (natDigits n) = true := by
  simp only [isDigitStr, Bool.and_eq_true, ne_eq, decide_eq_true_eq, List.all_eq_true]
  exact ⟨natDigits_ne_nil n, fun c hc => (natDigits_good n c hc).1⟩

lemma intRepr_nonWs (n : Int) : ∀ c ∈ intRepr n, c.isWhitespace = false := by
  intro c hc
  unfold intRepr at hc
  split at hc
  · rcases List.mem_cons.mp hc with hc | hc
    · rw [hc]; decide
    · exact (natDigits_good _ c hc).2.1
  · exact (natDigits_good _ c hc).2.1

lemma intRepr_ne_nil (n : Int) : intRepr n ≠ [] := by
  unfold intRepr
  split
  · simp
  · exact natDigits_ne_nil _

lemma dropWhile_eq_self_of_take {p : Char → Bool} {l : Str}
    (h : ∀ c ∈ l.take 1, p c = false) : l.dropWhile p = l := by
  cases l with
  | nil => rfl
  | cons c cs => simp [List.dropWhile_cons, h c (by simp)]

lemma pyStrip_eq_self_of_ends {l : Str}
    (h1 : ∀ c ∈ l.take 1, c.isWhitespace = false)
    (h2 : ∀ c ∈ l.reverse.take 1, c.isWhitespace = false) : pyStrip l = l := by
  unfold pyStrip
  rw [dropWhile_eq_self_of_take h1, dropWhile_eq_self_of_take h2, List.reverse_reverse]

lemma pyStrip_eq_self_of_nonWs {l : Str} (h : ∀ c ∈ l, c.isWhitespace = false) :
    pyStrip l = l := by
  refine pyStrip_eq_self_of_ends (fun c hc => h c (List.mem_of_mem_take hc)) ?_
  intro c hc
  have hm := List.mem_of_mem_take hc
  exact h c (List.mem_reverse.mp hm)

lemma pyStrip_space (l : Str) : pyStrip (' ' :: l) = pyStrip l := by
  unfold pyStrip
  rw [List.dropWhile_cons]
  simp

lemma pyStrip_intRepr (n : Int) : pyStrip (intRepr n) = intRepr n :=
  pyStrip_eq_self_of_nonWs (intRepr_nonWs n)

lemma pyInt_intRepr (n : Int) : pyInt (intRepr n) = some n := by
  unfold pyInt
  rw [pyStrip_intRepr]
  by_cases hneg : n < 0
  · have h1 : ¬ ('-' : Char) = '+' := by decide
    simp only [intRepr, if_pos hneg, pyIntCore, if_neg h1, isDigitStr_natDigits,
      natDigits_digitsToNat]
    simp only [if_true, if_pos rfl]
    rw [Int.ofNat_eq_natCast]
    congr 1
    omega
  · rw [show intRepr n = natDigits n.toNat from by rw [intRepr, if_neg hneg]]
    rcases hd : natDigits n.toNat with _ | ⟨c, cs⟩
    · exact absurd hd (natDigits_ne_nil _)
    · have hgood : goodDigit c := natDigits_good n.toNat c (by rw [hd]; simp)
      simp only [pyIntCore, if_neg hgood.2.2.1, if_neg hgood.2.2.2]
      rw [← hd, isDigitStr_natDigits]
      simp only [if_pos rfl, if_true, natDigits_digitsToNat]
      rw [Int.ofNat_eq_natCast]
      congr 1
      omega

lemma splitCRLF_ne_nil (l : Str) : splitCRLF l ≠ [] := by
  match l with
  | [] => simp [splitCRLF]
  | [c] => simp [splitCRLF]
  | c :: d :: rest =>
    simp only [splitCRLF]
    split
    · simp
    · split <;> simp

lemma splitCRLF_append {a : Str} (b : Str) (h : noCRLF a = true) :
    splitCRLF (a ++ '\r' :: '\n' :: b) = a :: splitCRLF b := by
  induction a with
  | nil =>
    simp only [List.nil_append]
    have hinner : splitCRLF ('\r' :: '\n' :: b) = [] :: splitCRLF b := by
      simp [splitCRLF]
    rw [hinner]
  | cons c a' ih =>
    cases a' with
    | nil =>
      have hcond : ¬(c = '\r' ∧ ('\r' : Char) = '\n') := by
        intro hh; exact absurd hh.2 (by decide)
      have hinner : splitCRLF ('\r' :: '\n' :: b) = [] :: splitCRLF b := by
        simp [splitCRLF]
      simp only [List.cons_append, List.nil_append, splitCRLF, if_neg hcond]
      simp
    | cons c' a'' =>
      simp only [noCRLF] at h
      split at h
      · exact absurd h (by simp)
      · rename_i hcond
        have ihh := ih h
        simp only [List.cons_append] at ihh ⊢
        simp only [splitCRLF, if_neg hcond]
        rw [ihh]

lemma splitWsAux_word (w : Str) (hw : ∀ c ∈ w, c.isWhitespace = false) :
    ∀ acc rest, splitWsAux (w ++ rest) acc = splitWsAux rest (w.reverse ++ acc) := by
  induction w with
  | nil => intro acc rest; simp
  | cons c w' ih =>
    intro acc rest
    have hc : c.isWhitespace = false := hw c (by simp)
    simp only [List.cons_append, List.append_eq, splitWsAux, hc, Bool.false_eq_true, if_false]
    rw [ih (fun x hx => hw x (by simp [hx])) (c :: acc) rest]
    simp

lemma ws_space : (' ' : Char).isWhitespace = true := by decide

lemma splitWs_space (l : Str) : splitWs (' ' :: l) = splitWs l := by
  unfold splitWs
  simp [splitWsAux, ws_space]

lemma splitWs_word_space (w rest : Str) (hne : w ≠ [])
    (hw : ∀ c ∈ w, c.isWhitespace = false) :
    splitWs (w ++ ' ' :: rest) = w :: splitWs rest := by
  unfold splitWs
  rw [splitWsAux_word w hw [] (' ' :: rest)]
  simp [splitWsAux, ws_space, hne]

lemma splitWs_word_end (w : Str) (hne : w ≠ [])
    (hw : ∀ c ∈ w, c.isWhitespace = false) : splitWs w = [w] := by
  unfold splitWs
  rw [← List.append_nil w, splitWsAux_word w hw [] []]
  simp [splitWsAux, hne]

lemma splitWs_join (ws : List Str) (rest : Str)
    (h : ∀ w ∈ ws, w ≠ [] ∧ ∀ c ∈ w, c.isWhitespace = false) :
    splitWs (wordsJoin ws ++ ' ' :: rest) = ws ++ splitWs rest := by
  induction ws with
  | nil => simpa [wordsJoin] using splitWs_space rest
  | cons w ws' ih =>
    cases ws' with
    | nil =>
      simp only [wordsJoin]
      rw [splitWs_word_space w rest (h w (by simp)).1 (h w (by simp)).2]
      rfl
    | cons w2 ws'' =>
      have hw := h w (by simp)
      have hrest : ∀ x ∈ w2 :: ws'', x ≠ [] ∧ ∀ c ∈ x, c.isWhitespace = false := by
        intro x hx
        exact h x (by simp [hx])
      simp only [wordsJoin, List.append_assoc, List.cons_append]
      rw [splitWs_word_space w _ hw.1 hw.2, ih hrest]
      simp

lemma splitWsAux_mem :
    ∀ (l acc : Str), (∀ c ∈ acc, c.isWhitespace = false) →
      ∀ w ∈ splitWsAux l acc, w ≠ [] ∧ ∀ c ∈ w, c.isWhitespace = false := by
  intro l
  induction l with
  | nil =>
    intro acc hacc w hw
    by_cases h : acc = []
    · simp [splitWsAux, h] at hw
    · simp only [splitWsAux, if_neg h, List.mem_singleton] at hw
      subst hw
      refine ⟨by simpa using h, ?_⟩
      intro c hc
      exact hacc c (List.mem_reverse.mp hc)
  | cons c cs ih =>
    intro acc hacc w hw
    by_cases hc : c.isWhitespace = true
    · by_cases h : acc = []
      · simp only [splitWsAux, hc, if_true, h, if_pos rfl] at hw
        exact ih [] (by simp) w hw
      · simp only [splitWsAux, hc, if_true, if_neg h, List.mem_cons] at hw
        rcases hw with hw | hw
        · subst hw
          refine ⟨by simpa using h, ?_⟩
          intro x hx
          exact hacc x (List.mem_reverse.mp hx)
        · exact ih [] (by simp) w hw
    · have hc' : c.isWhitespace = false := by simpa using hc
      simp only [splitWsAux, hc', Bool.false_eq_true, if_false] at hw
      refine ih (c :: acc) ?_ w hw
      intro x hx
      rcases List.mem_cons.mp hx with hx | hx
      · rw [hx]; exact hc'
      · exact hacc x hx

lemma splitWs_mem (l : Str) : ∀ w ∈ splitWs l, w ≠ [] ∧ ∀ c ∈ w, c.isWhitespace = false :=
  splitWsAux_mem l [] (by simp)

lemma pySplitFirst_cons_hit (sep : Char) (cs : Str) :
    pySplitFirst sep (sep :: cs) = some ([], cs) := by
  simp [pySplitFirst]

lemma pySplitFirst_append (k v : Str) (hk : ∀ c ∈ k, ¬ c = ':') :
    pySplitFirst ':' (k ++ ':' :: v) = some (k, v) := by
  induction k with
  | nil => simp [pySplitFirst]
  | cons c k' ih =>
    simp only [List.cons_append, List.append_eq, pySplitFirst, if_neg (hk c (by simp))]
    rw [ih (fun x hx => hk x (by simp [hx]))]

lemma dictGet_nil (k : Str) : dictGet ([] : List (Str × α)) k = none := rfl

lemma dictGet_cons_hit (k : Str) (v : α) (d : List (Str × α)) :
    dictGet ((k, v) :: d) k = some v := by
  simp [dictGet, List.find?_cons]

lemma dictGet_cons_miss {k k' : Str} (h : ¬ k = k') (v : α) (d : List (Str × α)) :
    dictGet ((k, v) :: d) k' = dictGet d k' := by
  simp [dictGet, List.find?_cons, h]

lemma dictSet_fresh {d : List (Str × α)} {k : Str}
    (h : d.any (fun p => p.1 = k) = false) (v : α) : dictSet d k v = d ++ [(k, v)] := by
  simp [dictSet, h]

-- find?/filter helper lemmas.

lemma find?_filter_of_imp {p q : α → Bool} (l : List α)
    (h : ∀ x, p x = true → q x = true) : (l.filter q).find? p = l.find? p := by
  induction l with
  | nil => rfl
  | cons a l ih =>
    cases hp : p a with
    | false =>
      cases hq : q a with
      | false => simp [List.filter_cons, hq, List.find?_cons, hp, ih]
      | true => simp [List.filter_cons, hq, List.find?_cons, hp, ih]
    | true =>
      have hq := h a hp
      simp [List.filter_cons, hq, List.find?_cons, hp]

lemma find?_filter_none {p q : α → Bool} (l : List α)
    (h : ∀ x, p x = true → q x = false) : (l.filter q).find? p = none := by
  induction l with
  | nil => rfl
  | cons a l ih =>
    cases hq : q a with
    | false => simp [List.filter_cons, hq, ih]
    | true =>
      cases hp : p a with
      | false => simp [List.filter_cons, hq, List.find?_cons, hp, ih]
      | true =>
        have := h a hp
        rw [hq] at this
        cases this

lemma find?_map_overwrite (d : List (Str × α)) (k : Str) (v : α) :
    (d.map (fun p => if p.1 = k then (k, v) else p)).find? (fun p => p.1 = k) =
      if d.any (fun p => p.1 = k) then some (k, v) else none := by
  induction d with
  | nil => rfl
  | cons a d ih =>
    by_cases ha : a.1 = k
    · have hd : decide (a.1 = k) = true := decide_eq_true ha
      rw [List.map_cons, if_pos ha, List.find?_cons_of_pos _ (by simp), List.any_cons, hd,
        Bool.true_or, if_pos rfl]
    · have hd : decide (a.1 = k) = false := decide_eq_false ha
      rw [List.map_cons, if_neg ha, List.find?_cons_of_neg _ (by simp [ha]),
        List.any_cons, ih, hd, Bool.false_or]

lemma find?_map_overwrite_miss (d : List (Str × α)) {k k' : Str} (h : ¬ k = k') (v : α) :
    (d.map (fun p => if p.1 = k then (k, v) else p)).find? (fun p => p.1 = k') =
      d.find? (fun p => p.1 = k') := by
  induction d with
  | nil => rfl
  | cons a d ih =>
    by_cases ha : a.1 = k
    · have ha' : ¬ a.1 = k' := by rw [ha]; exact h
      rw [List.map_cons, if_pos ha, List.find?_cons_of_neg _ (by simp [h]),
        List.find?_cons_of_neg _ (by simp [ha']), ih]
    · by_cases ha' : a.1 = k'
      · rw [List.map_cons, if_neg ha, List.find?_cons_of_pos _ (by simp [ha']),
          List.find?_cons_of_pos _ (by simp [ha'])]
      · rw [List.map_cons, if_neg ha, List.find?_cons_of_neg _ (by simp [ha']),
          List.find?_cons_of_neg _ (by simp [ha']), ih]

lemma dictGet_dictSet_hit (d : List (Str × α)) (k : Str) (v : α) :
    dictGet (dictSet d k v) k = some v := by
  unfold dictSet dictGet
  by_cases hany : d.any (fun p => p.1 = k) = true
  · rw [if_pos hany, find?_map_overwrite, if_pos hany]
    rfl
  · rw [if_neg hany, List.find?_append]
    have hnone : d.find? (fun p => decide (p.1 = k)) = none := by
      rw [List.find?_eq_none]
      intro x hx
      simp only [decide_eq_true_eq]
      intro hxk
      exact hany (List.any_eq_true.mpr ⟨x, hx, by simp [hxk]⟩)
    rw [hnone, Option.none_or, List.find?_cons_of_pos _ (by simp)]
    rfl

lemma dictGet_dictSet_miss (d : List (Str × α)) {k k' : Str} (h : ¬ k = k') (v : α) :
    dictGet (dictSet d k v) k' = dictGet d k' := by
  unfold dictSet dictGet
  by_cases hany : d.any (fun p => p.1 = k) = true
  · rw [if_pos hany, find?_map_overwrite_miss d h]
  · rw [if_neg hany, List.find?_append]
    have hone : ([(k, v)] : List (Str × α)).find? (fun p => decide (p.1 = k')) = none := by
      rw [List.find?_cons_of_neg _ (by simp [h])]
      rfl
    rw [hone, Option.or_none]

-- Store lemmas for the announce/purge claims.

/-- The record stored for the pair `(d, h)`, if any (first match, newest
first). -/
def findPair (st : Store) (d : Int) (h : Str) : Option RfcRecord :=
  st.index.find? (fun r => decide (r.rfc = d ∧ r.host = h))

/-- The last announce in `ops` for the pair `(d, h)`, if any. -/
def lastMatching (ops : List AnnounceOp) (d : Int) (h : Str) : Option AnnounceOp :=
  ops.reverse.find? (fun op => decide (op.rfc = d ∧ op.host = h))

/-- No two records share a `(document_id, host)` pair. -/
def pairwiseDistinct (l : List RfcRecord) : Prop :=
  l.Pairwise (fun a b => ¬ (a.rfc = b.rfc ∧ a.host = b.host))

lemma pairwiseDistinct_applyAdd {st : Store} (hp : pairwiseDistinct st.index)
    (rfc : Int) (t hn : Str) (p : Int) :
    pairwiseDistinct (applyAdd st rfc t hn p).index := by
  unfold applyAdd pairwiseDistinct
  refine List.Pairwise.cons ?_ (hp.filter _)
  intro r hr
  have hmem := List.of_mem_filter hr
  simp only [decide_eq_true_eq] at hmem
  intro hcontra
  exact hmem ⟨hcontra.1.symm, hcontra.2.symm⟩

lemma findPair_applyAdd (st : Store) (rfc : Int) (t hn : Str) (p : Int) (d : Int) (h : Str) :
    findPair (applyAdd st rfc t hn p) d h =
      if rfc = d ∧ hn = h then some { rfc := rfc, title := t, host := hn, port := p }
      else findPair st d h := by
  unfold findPair applyAdd
  by_cases hm : rfc = d ∧ hn = h
  · rw [if_pos hm, List.find?_cons_of_pos _ (by simp [hm.1, hm.2])]
  · rw [if_neg hm, List.find?_cons_of_neg _ (by simp; intro h1 h2; exact hm ⟨h1, h2⟩)]
    apply find?_filter_of_imp
    intro r hr
    simp only [decide_eq_true_eq] at hr ⊢
    intro hcontra
    exact hm ⟨hcontra.1 ▸ hr.1, hcontra.2 ▸ hr.2⟩

lemma findPair_foldl (ops : List AnnounceOp) (d : Int) (h : Str) :
    ∀ st, findPair (ops.foldl applyAnnounceOp st) d h =
      ((lastMatching ops d h).map AnnounceOp.toRecord).or (findPair st d h) := by
  induction ops with
  | nil => intro st; simp [lastMatching]
  | cons op ops ih =>
    intro st
    rw [List.foldl_cons, ih]
    unfold lastMatching
    rw [List.reverse_cons, List.find?_append]
    rcases hfind : ops.reverse.find? (fun op => decide (op.rfc = d ∧ op.host = h)) with _ | o
    · rw [hfind]
      simp only [Option.map_none', Option.none_or]
      unfold applyAnnounceOp
      rw [findPair_applyAdd]
      by_cases hm : op.rfc = d ∧ op.host = h
      · rw [if_pos hm, List.find?_cons_of_pos _ (by simp [hm.1, hm.2])]
        rfl
      · rw [if_neg hm, List.find?_cons_of_neg _ (by simp; intro h1 h2; exact hm ⟨h1, h2⟩)]
        rfl
    · rw [hfind]
      rfl

lemma remove_some (st : Store) (h0 : Str) :
    remove_all_for_host st (some h0) =
      if h0 = [] then st
      else { peers := st.peers.filter (fun p => ¬ p.1 = h0),
             index := st.index.filter (fun rec => ¬ rec.host = h0) } := rfl

/-- Relation between a `peer_ports` entry and the newest record of a host. -/
def optPortRel : Option Int → Option RfcRecord → Prop
  | some p, some r => r.port = p
  | none, none => True
  | _, _ => False

/-- Amended C5 invariant: a host is in `peer_ports` exactly when it has a
record, and the stored port is the port of the host's newest record. -/
def storePortInv (st : Store) : Prop :=
  ∀ h : Str, optPortRel (dictGet st.peers h) (st.index.find? (fun r => r.host = h))

lemma storePortInv_empty : storePortInv emptyStore := by
  intro h
  exact trivial

lemma storePortInv_applyAdd {st : Store} (hinv : storePortInv st)
    (rfc : Int) (t hn : Str) (p : Int) : storePortInv (applyAdd st rfc t hn p) := by
  intro h
  show optPortRel (dictGet (dictSet st.peers hn p) h)
    ((({ rfc := rfc, title := t, host := hn, port := p } : RfcRecord) ::
      st.index.filter (fun rec => ¬ (rec.rfc = rfc ∧ rec.host = hn))).find?
        (fun r => r.host = h))
  by_cases hh : hn = h
  · subst hh
    rw [dictGet_dictSet_hit, List.find?_cons_of_pos _ (by simp)]
    exact rfl
  · rw [dictGet_dictSet_miss _ hh, List.find?_cons_of_neg _ (by simp [hh]),
      find?_filter_of_imp]
    · exact hinv h
    · intro r hr
      simp only [decide_eq_true_eq] at hr ⊢
      intro hcontra
      exact hh (by rw [← hcontra.2, hr])

lemma storePortInv_purge {st : Store} (hinv : storePortInv st) (h0 : Str) :
    storePortInv (remove_all_for_host st (some h0)) := by
  intro h
  rw [remove_some]
  by_cases hnil : h0 = []
  · rw [if_pos hnil]
    exact hinv h
  · rw [if_neg hnil]
    show optPortRel (dictGet (st.peers.filter (fun p => ¬ p.1 = h0)) h)
      ((st.index.filter (fun rec => ¬ rec.host = h0)).find? (fun r => r.host = h))
    by_cases hh : h = h0
    · subst hh
      unfold dictGet
      rw [find?_filter_none, find?_filter_none]
      · exact trivial
      · intro x hx
        simp only [decide_eq_true_eq] at hx ⊢
        simp [hx]
      · intro x hx
        simp only [decide_eq_true_eq] at hx ⊢
        simp [hx]
    · unfold dictGet
      rw [find?_filter_of_imp, find?_filter_of_imp]
      · exact hinv h
      · intro x hx
        simp only [decide_eq_true_eq] at hx ⊢
        rw [hx]
        exact hh
      · intro x hx
        simp only [decide_eq_true_eq] at hx ⊢
        rw [hx]
        exact hh

lemma storePortInv_applyStoreOps (ops : List StoreOp) :
    ∀ st, storePortInv st → storePortInv (ops.foldl applyStoreOp st) := by
  induction ops with
  | nil => exact fun st h => h
  | cons op ops ih =>
    intro st h
    rw [List.foldl_cons]
    refine ih _ ?_
    cases op with
    | announce rfc t hn p => exact storePortInv_applyAdd h rfc t hn p
    | purge h0 => exact storePortInv_purge h h0

/-- The Store consistency property asserted by C5, read off the claim
verbatim: every record's host is mapped by `peer_ports` to that record's
port, and every `peer_ports` entry has at least one record. -/
def storeConsistent (st : Store) : Prop :=
  (∀ rec ∈ st.index, dictGet st.peers rec.host = some rec.port) ∧
  (∀ p ∈ st.peers, ∃ rec ∈ st.index, rec.host = p.1)

-- Handler-level lemmas.

lemma handle_message_parse_fail {hs : HandlerState} {msg : Str}
    (h : parse_p2s_request msg = none) :
    handle_message hs msg = (hs, (STATUS_BAD_REQUEST, [])) := by
  unfold handle_message
  rw [h]
  rfl

lemma handle_message_version_mismatch {hs : HandlerState} {msg : Str} {req : P2SRequest}
    (h : parse_p2s_request msg = some req) (hv : req.version ≠ PROTOCOL_VERSION) :
    handle_message hs msg = (hs, (STATUS_VERSION_NOT_SUPPORTED, [])) := by
  unfold handle_message
  rw [h]
  simp only [handle_parsed]
  rw [if_pos hv]

lemma run_session_cons (hs : HandlerState) (msg : Str) (rest : List Str) :
    run_session hs (msg :: rest) =
      ((run_session (handle_message hs msg).1 rest).1,
        (handle_message hs msg).2 :: (run_session (handle_message hs msg).1 rest).2) := rfl

lemma handle_message_session_update {hs : HandlerState} {msg : Str} {req : P2SRequest}
    (hp : parse_p2s_request msg = some req) (hv : req.version = PROTOCOL_VERSION) :
    (handle_message hs msg).1.session =
      { announced_host := some req.host, announced_port := some req.port } := by
  unfold handle_message
  rw [hp]
  simp only [handle_parsed]
  rw [if_neg (by simp [hv])]
  by_cases m1 : req.method = METHOD_ADD
  · rw [if_pos m1]
  · rw [if_neg m1]
    by_cases m2 : req.method = METHOD_LOOKUP
    · rw [if_pos m2]
      by_cases hf : hs.store.index.filter (fun rec => rec.rfc = rfcAsInt req.rfc_number) = []
      · rw [if_pos hf]
      · rw [if_neg hf]
    · rw [if_neg m2]
      by_cases m3 : req.method = METHOD_LIST
      · rw [if_pos m3]
      · rw [if_neg m3]

lemma handle_message_store_frame {hs : HandlerState} {msg : Str} {req : P2SRequest}
    (hp : parse_p2s_request msg = some req) (hv : req.version = PROTOCOL_VERSION)
    (hm : ¬ req.method = METHOD_ADD) : (handle_message hs msg).1.store = hs.store := by
  unfold handle_message
  rw [hp]
  simp only [handle_parsed]
  rw [if_neg (by simp [hv]), if_neg hm]
  by_cases m2 : req.method = METHOD_LOOKUP
  · rw [if_pos m2]
    by_cases hf : hs.store.index.filter (fun rec => rec.rfc = rfcAsInt req.rfc_number) = []
    · rw [if_pos hf]
    · rw [if_neg hf]
  · rw [if_neg m2]
    by_cases m3 : req.method = METHOD_LIST
    · rw [if_pos m3]
    · rw [if_neg m3]

lemma handle_message_add {hs : HandlerState} {msg : Str} {req : P2SRequest}
    (hp : parse_p2s_request msg = some req) (hv : req.version = PROTOCOL_VERSION)
    (hm : req.method = METHOD_ADD) :
    handle_message hs msg =
      ({ store := applyAdd hs.store (rfcAsInt req.rfc_number) req.title req.host req.port,
         session := { announced_host := some req.host, announced_port := some req.port } },
       (STATUS_OK, [{ rfc := rfcAsInt req.rfc_number, title := req.title,
                      host := req.host, port := req.port }])) := by
  unfold handle_message
  rw [hp]
  simp only [handle_parsed]
  rw [if_neg (by simp [hv]), if_pos hm]

lemma handle_message_unknown_method {hs : HandlerState} {msg : Str} {req : P2SRequest}
    (hp : parse_p2s_request msg = some req) (hv : req.version = PROTOCOL_VERSION)
    (h1 : ¬ req.method = METHOD_ADD) (h2 : ¬ req.method = METHOD_LOOKUP)
    (h3 : ¬ req.method = METHOD_LIST) :
    handle_message hs msg =
      ({ store := hs.store,
         session := { announced_host := some req.host, announced_port := some req.port } },
       (STATUS_BAD_REQUEST, [])) := by
  unfold handle_message
  rw [hp]
  simp only [handle_parsed]
  rw [if_neg (by simp [hv]), if_neg h1, if_neg h2, if_neg h3]

/-- C1: for every sequence of announce operations applied to the initially
empty Registry Store, the record list never holds two records with the same
`(document_id, host)` pair; the record stored for a pair is exactly the one
of the most recent announce for that pair (title and port included); and an
announce removes the pair's old record and prepends the applied record. -/
theorem C1_announce_upsert_uniqueness :
    (∀ ops : List AnnounceOp, pairwiseDistinct (applyAnnounces ops).index) ∧
    (∀ (ops : List AnnounceOp) (d : Int) (h : Str),
      findPair (applyAnnounces ops) d h =
        (lastMatching ops d h).map AnnounceOp.toRecord) ∧
    (∀ (ops : List AnnounceOp) (op : AnnounceOp),
      (applyAnnounces (ops ++ [op])).index =
        op.toRecord :: (applyAnnounces ops).index.filter
          (fun rec => ¬ (rec.rfc = op.rfc ∧ rec.host = op.host))) := by
  refine ⟨?_, ?_, ?_⟩
  · intro ops
    have hgen : ∀ st, pairwiseDistinct st.index →
        pairwiseDistinct (ops.foldl applyAnnounceOp st).index := by
      induction ops with
      | nil => exact fun st h => h
      | cons op ops ih => exact fun st h => ih _ (pairwiseDistinct_applyAdd h _ _ _ _)
    exact hgen emptyStore (by simp [emptyStore, pairwiseDistinct])
  · intro ops d h
    rw [applyAnnounces, findPair_foldl]
    rw [show findPair emptyStore d h = none from rfl, Option.or_none]
  · intro ops op
    rw [applyAnnounces, applyAnnounces, List.foldl_append]
    rfl

/-- C4: a successfully parsed request whose version token is not
"P2P-CI/1.0" is answered 505 with the whole handler state — Store (peers and
records) and session — unchanged, and the loop keeps serving the remaining
messages from that unchanged state. -/
theorem C4_version_gate (hs : HandlerState) (msg : Str) (req : P2SRequest)
    (rest : List Str) (hp : parse_p2s_request msg = some req)
    (hv : req.version ≠ PROTOCOL_VERSION) :
    handle_message hs msg = (hs, (STATUS_VERSION_NOT_SUPPORTED, [])) ∧
    run_session hs (msg :: rest) =
      ((run_session hs rest).1,
        (STATUS_VERSION_NOT_SUPPORTED, []) :: (run_session hs rest).2) := by
  have h1 : handle_message hs msg = (hs, (STATUS_VERSION_NOT_SUPPORTED, [])) :=
    handle_message_version_mismatch hp hv
  refine ⟨h1, ?_⟩
  rw [run_session_cons, h1]

/-- Witness for C4 at a concrete LOOKUP request carrying version
"P2P-CI/2.0". -/
theorem C4_version_gate_witness :
    handle_message { store := emptyStore, session := initialSession }
        (sl "LOOKUP RFC 1 P2P-CI/2.0\r\nHost: a\r\nPort: 9\r\n\r\n") =
      ({ store := emptyStore, session := initialSession },
       (STATUS_VERSION_NOT_SUPPORTED, [])) :=
  (C4_version_gate { store := emptyStore, session := initialSession }
    (sl "LOOKUP RFC 1 P2P-CI/2.0\r\nHost: a\r\nPort: 9\r\n\r\n")
    { method := sl "LOOKUP", rfc_number := .intVal 1, version := sl "P2P-CI/2.0",
      host := sl "a", port := 9, title := [] }
    [] (by decide) (by decide)).1

instance (st : Store) : Decidable (storeConsistent st) := by
  unfold storeConsistent
  infer_instance

/-- C5 counterexample: after announcing document 1 from host "h" with port 5
and then document 2 from the same host with port 6, the record for document 1
still carries port 5 while `peer_ports` maps "h" to 6 — the claimed
host/port consistency fails. -/
theorem C5_consistency_counterexample :
    ¬ storeConsistent (applyStoreOps
      [.announce 1 (sl "t") (sl "h") 5, .announce 2 (sl "t") (sl "h") 6]) := by
  decide

/-- C5 amended: after any sequence of announce and purge operations, a host
appears in `peer_ports` exactly when it has at least one record, and its
`peer_ports` entry equals the port of its newest record (older records may
carry an earlier port). -/
theorem C5_amended_peer_ports_invariant (ops : List StoreOp) :
    storePortInv (applyStoreOps ops) :=
  storePortInv_applyStoreOps ops emptyStore storePortInv_empty

/-- C6 counterexample: a Query (LOOKUP) request rewrites the session's
remembered identity, so the identity is not updated only on Announce. -/
theorem C6_identity_counterexample :
    (handle_message
        { store := emptyStore,
          session := { announced_host := some (sl "a"), announced_port := some 5 } }
        (sl "LOOKUP RFC 1 P2P-CI/1.0\r\nHost: b\r\nPort: 6\r\n\r\n")).1.session =
      { announced_host := some (sl "b"), announced_port := some 6 } ∧
    ¬ (handle_message
        { store := emptyStore,
          session := { announced_host := some (sl "a"), announced_port := some 5 } }
        (sl "LOOKUP RFC 1 P2P-CI/1.0\r\nHost: b\r\nPort: 6\r\n\r\n")).1.session =
      { announced_host := some (sl "a"), announced_port := some 5 } := by
  decide

/-- C6 amended: the per-session identity `(announced_host, announced_port)`
is assigned on every successfully parsed, version-matching request — Query
and Enumerate included — and left unchanged on parse failure or version
mismatch; it is read only by the teardown purge; Query and Enumerate do
leave the Store itself unchanged. -/
theorem C6_amended_session_identity :
    (∀ (hs : HandlerState) (msg : Str) (req : P2SRequest),
      parse_p2s_request msg = some req → req.version = PROTOCOL_VERSION →
      (handle_message hs msg).1.session =
        { announced_host := some req.host, announced_port := some req.port }) ∧
    (∀ (hs : HandlerState) (msg : Str),
      (parse_p2s_request msg = none ∨
        ∃ req, parse_p2s_request msg = some req ∧ req.version ≠ PROTOCOL_VERSION) →
      (handle_message hs msg).1.session = hs.session) ∧
    (∀ hs : HandlerState, session_teardown hs =
      remove_all_for_host hs.store hs.session.announced_host) ∧
    (∀ (hs : HandlerState) (msg : Str) (req : P2SRequest),
      parse_p2s_request msg = some req → req.version = PROTOCOL_VERSION →
      ¬ req.method = METHOD_ADD → (handle_message hs msg).1.store = hs.store) := by
  refine ⟨?_, ?_, fun _ => rfl, ?_⟩
  · intro hs msg req hp hv
    exact handle_message_session_update hp hv
  · intro hs msg hcase
    rcases hcase with h | ⟨req, hp, hv⟩
    · rw [handle_message_parse_fail h]
    · rw [handle_message_version_mismatch hp hv]
  · intro hs msg req hp hv hm
    exact handle_message_store_frame hp hv hm

/-- Witness for C6's amended theorem: the concrete LOOKUP request above. -/
theorem C6_amended_witness :
    (handle_message
        { store := emptyStore,
          session := { announced_host := some (sl "a"), announced_port := some 5 } }
        (sl "LOOKUP RFC 1 P2P-CI/1.0\r\nHost: b\r\nPort: 6\r\n\r\n")).1.session =
      { announced_host := some (sl "b"), announced_port := some 6 } :=
  C6_amended_session_identity.1
    { store := emptyStore,
      session := { announced_host := some (sl "a"), announced_port := some 5 } }
    (sl "LOOKUP RFC 1 P2P-CI/1.0\r\nHost: b\r\nPort: 6\r\n\r\n")
    { method := sl "LOOKUP", rfc_number := .intVal 1, version := PROTOCOL_VERSION,
      host := sl "b", port := 6, title := [] }
    (by decide) (by decide)

/-- C7: purging a host that is absent from both `peer_ports` and the record
list leaves the Store unchanged, and purging twice equals purging once. -/
theorem C7_purge_noop_idempotent :
    (∀ (st : Store) (h : Str),
      dictGet st.peers h = none → (∀ rec ∈ st.index, ¬ rec.host = h) →
      remove_all_for_host st (some h) = st) ∧
    (∀ (st : Store) (h : Str),
      remove_all_for_host (remove_all_for_host st (some h)) (some h) =
        remove_all_for_host st (some h)) := by
  constructor
  · intro st h hpeers hrecs
    rw [remove_some]
    by_cases hnil : h = []
    · rw [if_pos hnil]
    · rw [if_neg hnil]
      have hfind : st.peers.find? (fun p => decide (p.1 = h)) = none := by
        unfold dictGet at hpeers
        rcases hf : st.peers.find? (fun p => decide (p.1 = h)) with _ | x
        · exact hf
        · rw [hf] at hpeers
          simp at hpeers
      have h1 : st.peers.filter (fun p => ¬ p.1 = h) = st.peers := by
        rw [List.filter_eq_self]
        intro a ha
        simp only [decide_eq_true_eq]
        intro hk
        have := List.find?_eq_none.mp hfind a ha
        simp only [decide_eq_true_eq] at this
        exact this hk
      have h2 : st.index.filter (fun rec => ¬ rec.host = h) = st.index := by
        rw [List.filter_eq_self]
        intro a ha
        simp only [decide_eq_true_eq]
        exact hrecs a ha
      rw [h1, h2]
  · intro st h
    by_cases hnil : h = []
    · have e : remove_all_for_host st (some h) = st := by rw [remove_some, if_pos hnil]
      rw [e, e]
    · have e : remove_all_for_host st (some h) =
          { peers := st.peers.filter (fun p => ¬ p.1 = h),
            index := st.index.filter (fun rec => ¬ rec.host = h) } := by
        rw [remove_some, if_neg hnil]
      rw [e, remove_some, if_neg hnil]
      have hpfix : ((st.peers.filter (fun p => ¬ p.1 = h)).filter (fun p => ¬ p.1 = h)) =
          st.peers.filter (fun p => ¬ p.1 = h) := by
        rw [List.filter_eq_self]
        intro a ha
        exact (List.mem_filter.mp ha).2
      have hifix : ((st.index.filter (fun rec => ¬ rec.host = h)).filter
          (fun rec => ¬ rec.host = h)) = st.index.filter (fun rec => ¬ rec.host = h) := by
        rw [List.filter_eq_self]
        intro a ha
        exact (List.mem_filter.mp ha).2
      show ({ peers := (st.peers.filter (fun p => ¬ p.1 = h)).filter (fun p => ¬ p.1 = h),
              index := (st.index.filter (fun rec => ¬ rec.host = h)).filter
                (fun rec => ¬ rec.host = h) } : Store) =
        { peers := st.peers.filter (fun p => ¬ p.1 = h),
          index := st.index.filter (fun rec => ¬ rec.host = h) }
      rw [hpfix, hifix]

/-- Witness for C7: purging the unknown host "nohost" from the empty Store
leaves it unchanged. -/
theorem C7_purge_witness :
    remove_all_for_host emptyStore (some (sl "nohost")) = emptyStore :=
  C7_purge_noop_idempotent.1 emptyStore (sl "nohost") (by rfl)
    (by intro rec hrec; cases hrec)

/-- C10: an Announce whose Host header is present with an empty value parses
successfully with host ""; the ADD branch inserts the record under host ""
and remembers ("" , port) as the session identity; purging the empty host is
an immediate no-op, so teardown of such a session never removes anything. -/
theorem C10_empty_host_never_purged :
    (parse_p2s_request
        (sl "ADD RFC 1 P2P-CI/1.0\r\nHost: \r\nPort: 5\r\nTitle: T\r\n\r\n") =
      some { method := METHOD_ADD, rfc_number := .intVal 1,
             version := PROTOCOL_VERSION, host := [], port := 5, title := sl "T" }) ∧
    (∀ (hs : HandlerState) (msg : Str) (req : P2SRequest),
      parse_p2s_request msg = some req → req.version = PROTOCOL_VERSION →
      req.method = METHOD_ADD →
      (handle_message hs msg).1.store.index =
        { rfc := rfcAsInt req.rfc_number, title := req.title, host := req.host,
          port := req.port } ::
          hs.store.index.filter (fun rec =>
            ¬ (rec.rfc = rfcAsInt req.rfc_number ∧ rec.host = req.host)) ∧
      (handle_message hs msg).1.session =
        { announced_host := some req.host, announced_port := some req.port }) ∧
    (∀ st : Store, remove_all_for_host st (some []) = st) ∧
    (∀ hs : HandlerState, hs.session.announced_host = some [] →
      session_teardown hs = hs.store) := by
  refine ⟨by decide, ?_, fun st => rfl, ?_⟩
  · intro hs msg req hp hv hm
    rw [handle_message_add hp hv hm]
    exact ⟨rfl, rfl⟩
  · intro hs hhost
    unfold session_teardown
    rw [hhost, remove_some, if_pos rfl]

/-- Witness for C10: the concrete empty-host Announce applied to the empty
handler state. -/
theorem C10_empty_host_witness :
    (handle_message { store := emptyStore, session := initialSession }
        (sl "ADD RFC 1 P2P-CI/1.0\r\nHost: \r\nPort: 5\r\nTitle: T\r\n\r\n")).1.store.index =
      [{ rfc := 1, title := sl "T", host := [], port := 5 }] ∧
    (handle_message { store := emptyStore, session := initialSession }
        (sl "ADD RFC 1 P2P-CI/1.0\r\nHost: \r\nPort: 5\r\nTitle: T\r\n\r\n")).1.session =
      { announced_host := some [], announced_port := some 5 } :=
  C10_empty_host_never_purged.2.1 { store := emptyStore, session := initialSession }
    (sl "ADD RFC 1 P2P-CI/1.0\r\nHost: \r\nPort: 5\r\nTitle: T\r\n\r\n")
    { method := METHOD_ADD, rfc_number := .intVal 1, version := PROTOCOL_VERSION,
      host := [], port := 5, title := sl "T" }
    (by decide) (by decide) (by decide)

-- Helper lemmas for the malformed-message claim.

lemma parse_tokens_other (parts : List Str) (headers : Headers)
    (h3 : parts.length ≠ 3) (h4 : parts.length ≠ 4) :
    parse_tokens parts headers = none := by
  match parts with
  | [] => rfl
  | [a] => rfl
  | [a, b] => rfl
  | [a, b, c] => exact absurd rfl h3
  | [a, b, c, d] => exact absurd rfl h4
  | a :: b :: c :: d :: e :: tail => rfl

lemma parse_tokens3_not_list {m w v : Str} (headers : Headers)
    (h : ¬ m = METHOD_LIST ∨ ¬ w = RFC_ALL) :
    parse_tokens [m, w, v] headers = none := by
  simp only [parse_tokens]
  by_cases hm : m = METHOD_LIST
  · rw [if_pos hm]
    rcases h with h | h
    · exact absurd hm h
    · rw [if_pos h]
  · rw [if_neg hm]

lemma parse_tokens4_not_rfc {m kw i v : Str} (headers : Headers)
    (h : ¬ kw = KEYWORD_RFC) : parse_tokens [m, kw, i, v] headers = none := by
  simp only [parse_tokens]
  rw [if_pos h]

lemma parse_tokens4_bad_id {m kw i v : Str} (headers : Headers)
    (h : pyInt i = none) : parse_tokens [m, kw, i, v] headers = none := by
  simp only [parse_tokens]
  by_cases hk : kw ≠ KEYWORD_RFC
  · rw [if_pos hk]
  · rw [if_neg hk, h]

lemma parse_tokens_missing (parts : List Str) (headers : Headers)
    (h : dictGet headers HEADER_HOST = none ∨ dictGet headers HEADER_PORT = none) :
    parse_tokens parts headers = none := by
  match parts with
  | [] => rfl
  | [a] => rfl
  | [a, b] => rfl
  | a :: b :: c :: d :: e :: tail => rfl
  | [m, w, v] =>
    simp only [parse_tokens]
    by_cases hm : m = METHOD_LIST
    · rw [if_pos hm]
      by_cases hw : w ≠ RFC_ALL
      · rw [if_pos hw]
      · rw [if_neg hw]
        split
        · rename_i hostv portv hh hp
          rcases h with h | h
          · rw [h] at hh; exact Option.noConfusion hh
          · rw [h] at hp; exact Option.noConfusion hp
        · rfl
    · rw [if_neg hm]
  | [m, kw, i, v] =>
    simp only [parse_tokens]
    by_cases hk : kw ≠ KEYWORD_RFC
    · rw [if_pos hk]
    · rw [if_neg hk]
      split
      · rfl
      · split
        · rename_i hostv portv hh hp
          rcases h with h | h
          · rw [h] at hh; exact Option.noConfusion hh
          · rw [h] at hp; exact Option.noConfusion hp
        · rfl

lemma parse_tokens_bad_port (parts : List Str) (headers : Headers) (pv : Str)
    (hport : dictGet headers HEADER_PORT = some pv) (hbad : pyInt pv = none) :
    parse_tokens parts headers = none := by
  match parts with
  | [] => rfl
  | [a] => rfl
  | [a, b] => rfl
  | a :: b :: c :: d :: e :: tail => rfl
  | [m, w, v] =>
    simp only [parse_tokens]
    by_cases hm : m = METHOD_LIST
    · rw [if_pos hm]
      by_cases hw : w ≠ RFC_ALL
      · rw [if_pos hw]
      · rw [if_neg hw]
        split
        · rename_i hostv portv hh hp
          have hpe : portv = pv := by
            rw [hp] at hport
            exact Option.some.inj hport
          rw [hpe, hbad]
        · rfl
    · rw [if_neg hm]
  | [m, kw, i, v] =>
    simp only [parse_tokens]
    by_cases hk : kw ≠ KEYWORD_RFC
    · rw [if_pos hk]
    · rw [if_neg hk]
      split
      · rfl
      · split
        · rename_i hostv portv hh hp
          have hpe : portv = pv := by
            rw [hp] at hport
            exact Option.some.inj hport
          rw [hpe, hbad]
        · rfl

lemma headersLoop_bad_line (pre : List Str) :
    ∀ (acc : Headers) (bad : Str) (rest : List Str),
      (∀ l ∈ pre, l ≠ [] ∧ pySplitFirst ':' l ≠ none) → bad ≠ [] →
      pySplitFirst ':' bad = none → headersLoop (pre ++ bad :: rest) acc = none := by
  induction pre with
  | nil =>
    intro acc bad rest _ hbad hcol
    simp only [List.nil_append, headersLoop, if_neg hbad]
    rw [hcol]
  | cons l pre ih =>
    intro acc bad rest hpre hbad hcol
    have hl := hpre l (by simp)
    rcases hkv : pySplitFirst ':' l with _ | ⟨k, v⟩
    · exact absurd hkv hl.2
    · simp only [List.cons_append, headersLoop, if_neg hl.1]
      rw [hkv]
      exact ih _ bad rest (fun x hx => hpre x (by simp [hx])) hbad hcol

lemma dictGet_append_single_miss {headers : Headers} {k key : Str}
    (h : ¬ k = key) (v : Str) :
    dictGet (headers ++ [(k, v)]) key = dictGet headers key := by
  unfold dictGet
  rw [List.find?_append]
  have hone : ([(k, v)] : Headers).find? (fun p => decide (p.1 = key)) = none := by
    rw [List.find?_cons_of_neg _ (by simp [h])]
    rfl
  rw [hone, Option.or_none]

lemma parse_tokens_ignore_unknown (parts : List Str) (headers : Headers) (k v : Str)
    (h1 : ¬ k = HEADER_HOST) (h2 : ¬ k = HEADER_PORT) (h3 : ¬ k = HEADER_TITLE) :
    parse_tokens parts (headers ++ [(k, v)]) = parse_tokens parts headers := by
  match parts with
  | [] => rfl
  | [a] => rfl
  | [a, b] => rfl
  | a :: b :: c :: d :: e :: tail => rfl
  | [m, w, v0] =>
    simp only [parse_tokens]
    rw [dictGet_append_single_miss h1, dictGet_append_single_miss h2,
      dictGet_append_single_miss h3]
  | [m, kw, i, v0] =>
    simp only [parse_tokens]
    rw [dictGet_append_single_miss h1, dictGet_append_single_miss h2,
      dictGet_append_single_miss h3]

/-- C3 counterexample: a request whose method keyword is unknown but whose
first line otherwise has the valid 4-token `RFC` shape parses successfully —
contradicting the claim that a wrong (unknown) method keyword makes parsing
fail. -/
theorem C3_unknown_method_counterexample :
    parse_p2s_request (sl "FOO RFC 1 P2P-CI/1.0\r\nHost: h\r\nPort: 5\r\n\r\n") =
      some { method := sl "FOO", rfc_number := .intVal 1,
             version := PROTOCOL_VERSION, host := sl "h", port := 5, title := [] } := by
  decide

/-- C3 amended: deviations in token count, a wrong `RFC`/`ALL` keyword, a
non-integer id or port, a missing Host or Port header, or a header line with
no `:` separator make parsing fail, and every parse failure is answered 400
with the handler state unchanged and the connection still serving subsequent
messages; an unknown method keyword in an otherwise valid request parses
successfully and is answered 400 by the dispatch (store unchanged, session
identity updated, connection open); unknown trailing headers are ignored. -/
theorem C3_amended_malformed_handling :
    (∀ (hs : HandlerState) (msg : Str), parse_p2s_request msg = none →
      handle_message hs msg = (hs, (STATUS_BAD_REQUEST, []))) ∧
    (∀ (hs : HandlerState) (msg : Str) (rest : List Str), parse_p2s_request msg = none →
      run_session hs (msg :: rest) =
        ((run_session hs rest).1, (STATUS_BAD_REQUEST, []) :: (run_session hs rest).2)) ∧
    (∀ (text first : Str) (headers : Headers),
      split_message text = some (first, headers) →
      parse_p2s_request text = parse_from first headers) ∧
    (∀ (text : Str), split_message text = none → parse_p2s_request text = none) ∧
    (∀ (first : Str) (headers : Headers),
      (splitWs first).length ≠ 3 → (splitWs first).length ≠ 4 →
      parse_from first headers = none) ∧
    (∀ (first m w v : Str) (headers : Headers), splitWs first = [m, w, v] →
      (¬ m = METHOD_LIST ∨ ¬ w = RFC_ALL) → parse_from first headers = none) ∧
    (∀ (first m kw i v : Str) (headers : Headers), splitWs first = [m, kw, i, v] →
      ¬ kw = KEYWORD_RFC → parse_from first headers = none) ∧
    (∀ (first m kw i v : Str) (headers : Headers), splitWs first = [m, kw, i, v] →
      pyInt i = none → parse_from first headers = none) ∧
    (∀ (first : Str) (headers : Headers),
      dictGet headers HEADER_HOST = none ∨ dictGet headers HEADER_PORT = none →
      parse_from first headers = none) ∧
    (∀ (first : Str) (headers : Headers) (pv : Str),
      dictGet headers HEADER_PORT = some pv → pyInt pv = none →
      parse_from first headers = none) ∧
    (∀ (pre : List Str) (acc : Headers) (bad : Str) (rest : List Str),
      (∀ l ∈ pre, l ≠ [] ∧ pySplitFirst ':' l ≠ none) → bad ≠ [] →
      pySplitFirst ':' bad = none → headersLoop (pre ++ bad :: rest) acc = none) ∧
    (∀ (first : Str) (headers : Headers) (k v : Str),
      ¬ k = HEADER_HOST → ¬ k = HEADER_PORT → ¬ k = HEADER_TITLE →
      parse_from first (headers ++ [(k, v)]) = parse_from first headers) ∧
    (∀ (hs : HandlerState) (msg : Str) (req : P2SRequest),
      parse_p2s_request msg = some req → req.version = PROTOCOL_VERSION →
      ¬ req.method = METHOD_ADD → ¬ req.method = METHOD_LOOKUP →
      ¬ req.method = METHOD_LIST →
      handle_message hs msg =
        ({ store := hs.store,
           session := { announced_host := some req.host, announced_port := some req.port } },
         (STATUS_BAD_REQUEST, []))) := by
  refine ⟨?_, ?_, ?_, ?_, ?_, ?_, ?_, ?_, ?_, ?_, ?_, ?_, ?_⟩
  · intro hs msg h
    exact handle_message_parse_fail h
  · intro hs msg rest h
    rw [run_session_cons, handle_message_parse_fail h]
  · intro text first headers h
    unfold parse_p2s_request
    rw [h]
  · intro text h
    unfold parse_p2s_request
    rw [h]
  · intro first headers h3 h4
    exact parse_tokens_other (splitWs first) headers h3 h4
  · intro first m w v headers hsp h
    unfold parse_from
    rw [hsp]
    exact parse_tokens3_not_list headers h
  · intro first m kw i v headers hsp h
    unfold parse_from
    rw [hsp]
    exact parse_tokens4_not_rfc headers h
  · intro first m kw i v headers hsp h
    unfold parse_from
    rw [hsp]
    exact parse_tokens4_bad_id headers h
  · intro first headers h
    exact parse_tokens_missing (splitWs first) headers h
  · intro first headers pv h1 h2
    exact parse_tokens_bad_port (splitWs first) headers pv h1 h2
  · intro pre acc bad rest h1 h2 h3
    exact headersLoop_bad_line pre acc bad rest h1 h2 h3
  · intro first headers k v h1 h2 h3
    exact parse_tokens_ignore_unknown (splitWs first) headers k v h1 h2 h3
  · intro hs msg req hp hv m1 m2 m3
    exact handle_message_unknown_method hp hv m1 m2 m3

/-- Witness for the C3 amended theorem: a one-token first line fails to
parse and is answered 400 with the state unchanged. -/
theorem C3_amended_witness :
    handle_message { store := emptyStore, session := initialSession } (sl "BAD\r\n\r\n") =
      ({ store := emptyStore, session := initialSession }, (STATUS_BAD_REQUEST, [])) :=
  C3_amended_malformed_handling.1 { store := emptyStore, session := initialSession }
    (sl "BAD\r\n\r\n") (by decide)

/-- C9: on a response whose record section contains a line of three or more
tokens with a non-integer id, `parse_p2s_response` reaches the unguarded
`int()` calls of its record loop and raises an uncaught `ValueError`
(modelled as `.valueError`) — it neither returns a populated result nor the
explicit failure signal. -/
theorem C9_response_parser_raises :
    parse_p2s_response (sl "P2P-CI/1.0 200 OK\r\n\r\nxyz abc def\r\n\r\n") =
      .valueError := by
  decide

/-- ASCII bytes of a string (for concrete transfer-protocol streams). -/
def ascii (s : String) : Bytes := s.data.map (fun c => c.toNat)

lemma read_payload_take (sr : List Bytes) :
    ∀ (data : Bytes) (L : Int), 0 ≤ L → (∀ c ∈ sr, c ≠ []) →
      L ≤ ((data ++ sr.flatten).length : Int) →
      pyTake L (read_payload sr data L) = (data ++ sr.flatten).take L.toNat := by
  induction sr with
  | nil =>
    intro data L hL _ _
    simp only [read_payload, pyTake, if_pos hL, List.flatten_nil, List.append_nil]
  | cons c cs ih =>
    intro data L hL hne hlen
    simp only [read_payload]
    by_cases hlt : (data.length : Int) < L
    · rw [if_pos hlt, if_neg (hne c (by simp))]
      have h1 := ih (data ++ c) L hL (fun x hx => hne x (by simp [hx])) (by
        simp only [List.flatten_cons, List.append_assoc] at hlen ⊢
        simpa using hlen)
      rw [h1]
      simp [List.append_assoc]
    · rw [if_neg hlt]
      have hle : L.toNat ≤ data.length := by omega
      simp only [pyTake, if_pos hL]
      rw [List.take_append_of_le_length hle]

/-- C8: the Transfer Client's `download_rfc`, run over any chunked response
stream: every framing or status failure and every status other than 200
reports failure with no file written; on status 200 with a well-formed
Content-Length of L, provided the stream delivers at least L payload bytes
without closing early, it reads exactly L bytes past the header block,
writes exactly those bytes to the destination, and reports success with that
payload. -/
theorem C8_download_status_gate :
    (∀ stream : List Bytes, recv_until_marker stream [] = none →
      download_rfc stream = .ok { ok := false, payload := [], written := none }) ∧
    (∀ (stream : List Bytes) (buf : Bytes) (sr : List Bytes),
      recv_until_marker stream [] = some (buf, sr) → splitAtMarker buf = none →
      download_rfc stream = .ok { ok := false, payload := [], written := none }) ∧
    (∀ (stream : List Bytes) (buf : Bytes) (sr : List Bytes) (hb rest : Bytes),
      recv_until_marker stream [] = some (buf, sr) →
      splitAtMarker buf = some (hb, rest) →
      (splitWs ((splitCRLF (decodeBytes hb)).headD [])).length < 2 →
      download_rfc stream = .ok { ok := false, payload := [], written := none }) ∧
    (∀ (stream : List Bytes) (buf : Bytes) (sr : List Bytes) (hb rest : Bytes),
      recv_until_marker stream [] = some (buf, sr) →
      splitAtMarker buf = some (hb, rest) →
      pyInt ((splitWs ((splitCRLF (decodeBytes hb)).headD [])).getD 1 []) = none →
      download_rfc stream = .ok { ok := false, payload := [], written := none }) ∧
    (∀ (stream : List Bytes) (buf : Bytes) (sr : List Bytes) (hb rest : Bytes)
      (code : Int),
      recv_until_marker stream [] = some (buf, sr) →
      splitAtMarker buf = some (hb, rest) →
      pyInt ((splitWs ((splitCRLF (decodeBytes hb)).headD [])).getD 1 []) = some code →
      code ≠ 200 →
      download_rfc stream = .ok { ok := false, payload := [], written := none }) ∧
    (∀ (stream : List Bytes) (buf : Bytes) (sr : List Bytes) (hb rest : Bytes)
      (L : Int),
      recv_until_marker stream [] = some (buf, sr) →
      splitAtMarker buf = some (hb, rest) →
      ¬ (splitWs ((splitCRLF (decodeBytes hb)).headD [])).length < 2 →
      pyInt ((splitWs ((splitCRLF (decodeBytes hb)).headD [])).getD 1 []) = some 200 →
      pyInt ((dictGet (downloadHeaders ((splitCRLF (decodeBytes hb)).drop 1) [])
        (sl "Content-Length")).getD (sl "0")) = some L →
      0 ≤ L → (∀ c ∈ sr, c ≠ []) → L ≤ ((rest ++ sr.flatten).length : Int) →
      download_rfc stream =
        .ok { ok := true, payload := (rest ++ sr.flatten).take L.toNat,
              written := some ((rest ++ sr.flatten).take L.toNat) }) := by
  refine ⟨?_, ?_, ?_, ?_, ?_, ?_⟩
  · intro stream h
    simp only [download_rfc, h]
  · intro stream buf sr h1 h2
    simp only [download_rfc, h1, h2]
  · intro stream buf sr hb rest h1 h2 hlen
    simp only [download_rfc, h1, h2]
    rw [if_pos hlen]
  · intro stream buf sr hb rest h1 h2 hpi
    simp only [download_rfc, h1, h2, hpi]
    split
    · rfl
    · rfl
  · intro stream buf sr hb rest code h1 h2 hpi hcode
    simp only [download_rfc, h1, h2, hpi]
    split
    · rfl
    · simp [hcode]
  · intro stream buf sr hb rest L h1 h2 hlen hpi hcl hL hne henough
    simp only [download_rfc, h1, h2, hpi]
    rw [if_neg hlen, if_neg (by simp)]
    simp only [hcl]
    rw [read_payload_take sr rest L hL hne henough]

/-- Witness for C8: a one-chunk 200 response with Content-Length 3 and
payload "abc" downloads successfully, writing exactly those three bytes. -/
theorem C8_download_witness :
    download_rfc [ascii "P2P-CI/1.0 200 OK\r\nContent-Length: 3\r\n\r\nabc"] =
      .ok { ok := true, payload := ascii "abc", written := some (ascii "abc") } :=
  (C8_download_status_gate.2.2.2.2.2
    [ascii "P2P-CI/1.0 200 OK\r\nContent-Length: 3\r\n\r\nabc"]
    (ascii "P2P-CI/1.0 200 OK\r\nContent-Length: 3\r\n\r\nabc") []
    (ascii "P2P-CI/1.0 200 OK\r\nContent-Length: 3") (ascii "abc") 3
    (by decide) (by decide) (by decide) (by decide) (by decide) (by decide)
    (by decide) (by decide)).trans (by decide)

-- Round-trip infrastructure: a message as a CRLF-joined list of lines.

/-- Append CRLF after every element: the shape of every formatted message. -/
def joinCRLF (lines : List Str) : Str :=
  lines.foldr (fun l acc => l ++ '\r' :: '\n' :: acc) []

lemma joinCRLF_cons (l : Str) (ls : List Str) :
    joinCRLF (l :: ls) = l ++ '\r' :: '\n' :: joinCRLF ls := rfl

lemma splitCRLF_joinCRLF (lines : List Str) (h : ∀ l ∈ lines, noCRLF l = true) :
    splitCRLF (joinCRLF lines) = lines ++ [[]] := by
  induction lines with
  | nil => rfl
  | cons l ls ih =>
    rw [joinCRLF_cons, splitCRLF_append _ (h l (by simp)), ih (fun x hx => h x (by simp [hx]))]
    rfl

lemma noCRLF_of_no_cr {l : Str} (h : ∀ c ∈ l, ¬ c = '\r') : noCRLF l = true := by
  match l with
  | [] => rfl
  | [c] => rfl
  | c :: d :: rest =>
    have hc : ¬ (c = '\r' ∧ d = '\n') := fun hh => h c (by simp) hh.1
    simp only [noCRLF, if_neg hc]
    exact noCRLF_of_no_cr (fun x hx => h x (by simp [List.mem_cons] at hx ⊢; tauto))

lemma nonWs_ne_cr {c : Char} (h : c.isWhitespace = false) : ¬ c = '\r' := by
  intro hh
  rw [hh] at h
  exact absurd h (by decide)

lemma noCRLF_concat_of_noCRLF {a : Str} (b : Str) (ha : ∀ c ∈ a, ¬ c = '\r')
    (hb : noCRLF b = true) : noCRLF (a ++ b) = true := by
  induction a with
  | nil => exact hb
  | cons c a' ih =>
    have hc : ¬ c = '\r' := ha c (by simp)
    have hrest : noCRLF (a' ++ b) = true := ih (fun x hx => ha x (by simp [hx]))
    show noCRLF (c :: (a' ++ b)) = true
    match ha2 : a' ++ b with
    | [] => rfl
    | d :: rest =>
      rw [ha2] at hrest
      simp only [noCRLF, if_neg (show ¬ (c = '\r' ∧ d = '\n') by intro hh; exact hc hh.1)]
      exact hrest

/-- First line of a formatted 4-token request. -/
def reqLine4 (m : Str) (n : Int) : Str :=
  m ++ ' ' :: (KEYWORD_RFC ++ ' ' :: (intRepr n ++ ' ' :: PROTOCOL_VERSION))

/-- First line of a formatted LIST request. -/
def reqLineList : Str := METHOD_LIST ++ ' ' :: (RFC_ALL ++ ' ' :: PROTOCOL_VERSION)

def hostLine (host : Str) : Str := HEADER_HOST ++ ':' :: ' ' :: host

def portLine (port : Int) : Str := HEADER_PORT ++ ':' :: ' ' :: intRepr port

def titleLine (title : Str) : Str := HEADER_TITLE ++ ':' :: ' ' :: title

lemma format_req4_eq (m : Str) (hm : m = METHOD_ADD ∨ m = METHOD_LOOKUP) (n : Int)
    (host : Str) (port : Int) (title : Str) :
    format_p2s_request m (.intVal n) host port title =
      joinCRLF [reqLine4 m n, hostLine host, portLine port, titleLine title, []] := by
  have hnl : ¬ m = METHOD_LIST := by rcases hm with h | h <;> rw [h] <;> decide
  unfold format_p2s_request
  rw [if_neg hnl, if_pos hm]
  simp [joinCRLF, reqLine4, hostLine, portLine, titleLine, CRLF, renderRfcNumber,
    List.append_assoc]

lemma format_reqList_eq (rfc : RfcNumber) (host : Str) (port : Int) (title : Str) :
    format_p2s_request METHOD_LIST rfc host port title =
      joinCRLF [reqLineList, hostLine host, portLine port, []] := by
  unfold format_p2s_request
  rw [if_pos rfl, if_neg (by decide)]
  simp [joinCRLF, reqLineList, hostLine, portLine, CRLF, List.append_assoc]

lemma words_req4 (m : Str) (hm : m ≠ []) (hmw : ∀ c ∈ m, c.isWhitespace = false)
    (n : Int) : splitWs (reqLine4 m n) = [m, KEYWORD_RFC, intRepr n, PROTOCOL_VERSION] := by
  unfold reqLine4
  rw [splitWs_word_space m _ hm hmw,
    splitWs_word_space KEYWORD_RFC _ (by decide) (by decide),
    splitWs_word_space (intRepr n) _ (intRepr_ne_nil n) (intRepr_nonWs n),
    splitWs_word_end PROTOCOL_VERSION (by decide) (by decide)]

lemma words_reqList : splitWs reqLineList = [METHOD_LIST, RFC_ALL, PROTOCOL_VERSION] := by
  decide

lemma strip_req4 (m : Str) (hm : m ≠ []) (hmw : ∀ c ∈ m, c.isWhitespace = false)
    (n : Int) : pyStrip (reqLine4 m n) = reqLine4 m n := by
  apply pyStrip_eq_self_of_ends
  · intro c hc
    unfold reqLine4 at hc
    rw [List.take_append_of_le_length (by
      have := List.length_pos.mpr hm
      omega)] at hc
    exact hmw c (List.mem_of_mem_take hc)
  · intro c hc
    have hsplit : reqLine4 m n =
        (m ++ ' ' :: (KEYWORD_RFC ++ ' ' :: (intRepr n ++ [' ']))) ++ PROTOCOL_VERSION := by
      unfold reqLine4
      simp [List.append_assoc]
    rw [hsplit, List.reverse_append,
      List.take_append_of_le_length (by decide)] at hc
    have hrev : PROTOCOL_VERSION.reverse.take 1 = ['0'] := by decide
    rw [hrev] at hc
    simp only [List.mem_singleton] at hc
    rw [hc]
    decide

lemma noCR_req4 (m : Str) (hmw : ∀ c ∈ m, c.isWhitespace = false) (n : Int) :
    ∀ c ∈ reqLine4 m n, ¬ c = '\r' := by
  intro c hc hcr
  subst hcr
  simp only [reqLine4, List.mem_append, List.mem_cons] at hc
  rcases hc with hc | hc | hc | hc | hc | hc | hc
  · exact nonWs_ne_cr (hmw _ hc) rfl
  · exact absurd hc (by decide)
  · exact absurd hc (by decide)
  · exact absurd hc (by decide)
  · exact nonWs_ne_cr (intRepr_nonWs n _ hc) rfl
  · exact absurd hc (by decide)
  · exact absurd hc (by decide)

lemma noCR_reqList : ∀ c ∈ reqLineList, ¬ c = '\r' := by decide

lemma hostLine_ne_nil (host : Str) : hostLine host ≠ [] := by
  unfold hostLine
  simp [HEADER_HOST, sl]

lemma portLine_ne_nil (port : Int) : portLine port ≠ [] := by
  unfold portLine
  simp [HEADER_PORT, sl]

lemma titleLine_ne_nil (title : Str) : titleLine title ≠ [] := by
  unfold titleLine
  simp [HEADER_TITLE, sl]

lemma hostLine_split (host : Str) :
    pySplitFirst ':' (hostLine host) = some (HEADER_HOST, ' ' :: host) :=
  pySplitFirst_append HEADER_HOST (' ' :: host) (by decide)

lemma portLine_split (port : Int) :
    pySplitFirst ':' (portLine port) = some (HEADER_PORT, ' ' :: intRepr port) :=
  pySplitFirst_append HEADER_PORT (' ' :: intRepr port) (by decide)

lemma titleLine_split (title : Str) :
    pySplitFirst ':' (titleLine title) = some (HEADER_TITLE, ' ' :: title) :=
  pySplitFirst_append HEADER_TITLE (' ' :: title) (by decide)

lemma hostLine_noCRLF {host : Str} (hh : noCRLF host = true) :
    noCRLF (hostLine host) = true := by
  have he : hostLine host = (HEADER_HOST ++ [':', ' ']) ++ host := by
    unfold hostLine
    simp [List.append_assoc]
  rw [he]
  exact noCRLF_concat_of_noCRLF host (by decide) hh

lemma titleLine_noCRLF {title : Str} (ht : noCRLF title = true) :
    noCRLF (titleLine title) = true := by
  have he : titleLine title = (HEADER_TITLE ++ [':', ' ']) ++ title := by
    unfold titleLine
    simp [List.append_assoc]
  rw [he]
  exact noCRLF_concat_of_noCRLF title (by decide) ht

lemma portLine_noCRLF (port : Int) : noCRLF (portLine port) = true := by
  have he : portLine port = (HEADER_PORT ++ [':', ' ']) ++ intRepr port := by
    unfold portLine
    simp [List.append_assoc]
  rw [he]
  exact noCRLF_concat_of_noCRLF _ (by decide)
    (noCRLF_of_no_cr (fun c hc => nonWs_ne_cr (intRepr_nonWs port c hc)))

lemma headersLoop_cons_step (line : Str) (rest : List Str) (acc : Headers) (k v : Str)
    (hne : line ≠ []) (hsp : pySplitFirst ':' line = some (k, v)) :
    headersLoop (line :: rest) acc =
      headersLoop rest (dictSet acc (pyStrip k) (pyStrip v)) := by
  simp only [headersLoop, if_neg hne]
  split
  · rename_i heq
    rw [hsp] at heq
    exact Option.noConfusion heq
  · rename_i k' v' heq
    rw [hsp] at heq
    have hp := Option.some.inj heq
    simp only [Prod.mk.injEq] at hp
    rw [hp.1, hp.2]

lemma headersLoop_blank (rest : List Str) (acc : Headers) :
    headersLoop ([] :: rest) acc = some acc := by
  simp [headersLoop]

lemma any_key_cons {α : Type} (k0 : Str) (v0 : α) (d : List (Str × α)) (k : Str)
    (h : ¬ k0 = k) :
    ((k0, v0) :: d).any (fun p => p.1 = k) = d.any (fun p => p.1 = k) := by
  simp [List.any_cons, h]

lemma any_key_nil {α : Type} (k : Str) :
    (([] : List (Str × α)).any (fun p => p.1 = k)) = false := rfl

lemma headersLoop_req3 (host : Str) (hh : pyStrip host = host) (port : Int)
    (title : Str) (ht : pyStrip title = title) :
    headersLoop [hostLine host, portLine port, titleLine title, [], []] [] =
      some [(HEADER_HOST, host), (HEADER_PORT, intRepr port), (HEADER_TITLE, title)] := by
  rw [headersLoop_cons_step _ _ _ _ _ (hostLine_ne_nil host) (hostLine_split host)]
  rw [show pyStrip HEADER_HOST = HEADER_HOST from by decide, pyStrip_space, hh]
  rw [dictSet_fresh (any_key_nil _) host]
  rw [headersLoop_cons_step _ _ _ _ _ (portLine_ne_nil port) (portLine_split port)]
  rw [show pyStrip HEADER_PORT = HEADER_PORT from by decide, pyStrip_space, pyStrip_intRepr]
  rw [dictSet_fresh (by
    rw [List.nil_append, any_key_cons _ _ _ _ (by decide), any_key_nil]) (intRepr port)]
  rw [headersLoop_cons_step _ _ _ _ _ (titleLine_ne_nil title) (titleLine_split title)]
  rw [show pyStrip HEADER_TITLE = HEADER_TITLE from by decide, pyStrip_space, ht]
  rw [dictSet_fresh (by
    rw [List.nil_append, List.cons_append, List.nil_append, any_key_cons _ _ _ _ (by decide),
      any_key_cons _ _ _ _ (by decide), any_key_nil]) title]
  rw [headersLoop_blank]
  simp

lemma headersLoop_req2 (host : Str) (hh : pyStrip host = host) (port : Int) :
    headersLoop [hostLine host, portLine port, [], []] [] =
      some [(HEADER_HOST, host), (HEADER_PORT, intRepr port)] := by
  rw [headersLoop_cons_step _ _ _ _ _ (hostLine_ne_nil host) (hostLine_split host)]
  rw [show pyStrip HEADER_HOST = HEADER_HOST from by decide, pyStrip_space, hh]
  rw [dictSet_fresh (any_key_nil _) host]
  rw [headersLoop_cons_step _ _ _ _ _ (portLine_ne_nil port) (portLine_split port)]
  rw [show pyStrip HEADER_PORT = HEADER_PORT from by decide, pyStrip_space, pyStrip_intRepr]
  rw [dictSet_fresh (by
    rw [List.nil_append, any_key_cons _ _ _ _ (by decide), any_key_nil]) (intRepr port)]
  rw [headersLoop_blank]
  simp

lemma parse_req4 (m : Str) (n : Int) (host : Str) (port : Int) (title : Str) :
    parse_tokens [m, KEYWORD_RFC, intRepr n, PROTOCOL_VERSION]
        [(HEADER_HOST, host), (HEADER_PORT, intRepr port), (HEADER_TITLE, title)] =
      some { method := m, rfc_number := .intVal n, version := PROTOCOL_VERSION,
             host := host, port := port, title := title } := by
  have hH : dictGet [(HEADER_HOST, host), (HEADER_PORT, intRepr port),
      (HEADER_TITLE, title)] HEADER_HOST = some host := dictGet_cons_hit _ _ _
  have hP : dictGet [(HEADER_HOST, host), (HEADER_PORT, intRepr port),
      (HEADER_TITLE, title)] HEADER_PORT = some (intRepr port) := by
    rw [dictGet_cons_miss (show ¬ HEADER_HOST = HEADER_PORT by decide), dictGet_cons_hit]
  have hT : dictGet [(HEADER_HOST, host), (HEADER_PORT, intRepr port),
      (HEADER_TITLE, title)] HEADER_TITLE = some title := by
    rw [dictGet_cons_miss (show ¬ HEADER_HOST = HEADER_TITLE by decide),
      dictGet_cons_miss (show ¬ HEADER_PORT = HEADER_TITLE by decide), dictGet_cons_hit]
  simp only [parse_tokens, if_neg (show ¬ KEYWORD_RFC ≠ KEYWORD_RFC by simp),
    pyInt_intRepr, hH, hP, hT, Option.getD_some]

lemma parse_reqList (host : Str) (port : Int) :
    parse_tokens [METHOD_LIST, RFC_ALL, PROTOCOL_VERSION]
        [(HEADER_HOST, host), (HEADER_PORT, intRepr port)] =
      some { method := METHOD_LIST, rfc_number := .strVal RFC_ALL,
             version := PROTOCOL_VERSION, host := host, port := port, title := [] } := by
  have hH : dictGet [(HEADER_HOST, host), (HEADER_PORT, intRepr port)] HEADER_HOST =
      some host := dictGet_cons_hit _ _ _
  have hP : dictGet [(HEADER_HOST, host), (HEADER_PORT, intRepr port)] HEADER_PORT =
      some (intRepr port) := by
    rw [dictGet_cons_miss (show ¬ HEADER_HOST = HEADER_PORT by decide), dictGet_cons_hit]
  have hT : dictGet [(HEADER_HOST, host), (HEADER_PORT, intRepr port)] HEADER_TITLE =
      none := by
    rw [dictGet_cons_miss (show ¬ HEADER_HOST = HEADER_TITLE by decide),
      dictGet_cons_miss (show ¬ HEADER_PORT = HEADER_TITLE by decide)]
    rfl
  simp only [parse_tokens, if_pos rfl, if_neg (show ¬ RFC_ALL ≠ RFC_ALL by simp),
    pyInt_intRepr, hH, hP, hT, Option.getD_none, eq_self_iff_true, if_true]

lemma roundtrip_req4 (m : Str) (hm : m = METHOD_ADD ∨ m = METHOD_LOOKUP) (n : Int)
    (host : Str) (hh1 : pyStrip host = host) (hh2 : noCRLF host = true)
    (port : Int) (title : Str) (ht1 : pyStrip title = title) (ht2 : noCRLF title = true) :
    parse_p2s_request (format_p2s_request m (.intVal n) host port title) =
      some { method := m, rfc_number := .intVal n, version := PROTOCOL_VERSION,
             host := host, port := port, title := title } := by
  have hmne : m ≠ [] := by rcases hm with h | h <;> rw [h] <;> decide
  have hmw : ∀ c ∈ m, c.isWhitespace = false := by
    rcases hm with h | h <;> rw [h] <;> decide
  rw [format_req4_eq m hm n host port title]
  have hlines : splitCRLF (joinCRLF [reqLine4 m n, hostLine host, portLine port,
      titleLine title, []]) =
      [reqLine4 m n, hostLine host, portLine port, titleLine title, [], []] := by
    rw [splitCRLF_joinCRLF _ (by
      intro l hl
      simp only [List.mem_cons] at hl
      rcases hl with h | h | h | h | h | h
      · rw [h]; exact noCRLF_of_no_cr (noCR_req4 m hmw n)
      · rw [h]; exact hostLine_noCRLF hh2
      · rw [h]; exact portLine_noCRLF port
      · rw [h]; exact titleLine_noCRLF ht2
      · rw [h]; rfl
      · exact absurd h (by simp))]
    rfl
  have hne0 : reqLine4 m n ≠ [] := by
    unfold reqLine4
    simp [hmne]
  have hsm : split_message (joinCRLF [reqLine4 m n, hostLine host, portLine port,
      titleLine title, []]) =
      some (reqLine4 m n,
        [(HEADER_HOST, host), (HEADER_PORT, intRepr port), (HEADER_TITLE, title)]) := by
    simp only [split_message, hlines, strip_req4 m hmne hmw n,
      headersLoop_req3 host hh1 port title ht1, if_neg hne0]
  unfold parse_p2s_request
  rw [hsm]
  show parse_from (reqLine4 m n) _ = _
  unfold parse_from
  rw [words_req4 m hmne hmw n, parse_req4]

lemma roundtrip_reqList (rfc : RfcNumber) (host : Str) (hh1 : pyStrip host = host)
    (hh2 : noCRLF host = true) (port : Int) (title : Str) :
    parse_p2s_request (format_p2s_request METHOD_LIST rfc host port title) =
      some { method := METHOD_LIST, rfc_number := .strVal RFC_ALL,
             version := PROTOCOL_VERSION, host := host, port := port, title := [] } := by
  rw [format_reqList_eq rfc host port title]
  have hlines : splitCRLF (joinCRLF [reqLineList, hostLine host, portLine port, []]) =
      [reqLineList, hostLine host, portLine port, [], []] := by
    rw [splitCRLF_joinCRLF _ (by
      intro l hl
      simp only [List.mem_cons] at hl
      rcases hl with h | h | h | h | h
      · rw [h]; exact noCRLF_of_no_cr noCR_reqList
      · rw [h]; exact hostLine_noCRLF hh2
      · rw [h]; exact portLine_noCRLF port
      · rw [h]; rfl
      · exact absurd h (by simp))]
    rfl
  have hsm : split_message (joinCRLF [reqLineList, hostLine host, portLine port, []]) =
      some (reqLineList, [(HEADER_HOST, host), (HEADER_PORT, intRepr port)]) := by
    simp only [split_message, hlines,
      show pyStrip reqLineList = reqLineList from by decide,
      headersLoop_req2 host hh1 port, if_neg (show reqLineList ≠ [] from by decide)]
  unfold parse_p2s_request
  rw [hsm]
  show parse_from reqLineList _ = _
  unfold parse_from
  rw [words_reqList, parse_reqList]

/-- Status line of a formatted response. -/
def statusLine (code : Int) : Str :=
  PROTOCOL_VERSION ++ ' ' :: (intRepr code ++ ' ' :: STATUS_PHRASES code)

/-- Record line of a formatted response. -/
def lineOf (r : RfcRecord) : Str :=
  intRepr r.rfc ++ ' ' :: (r.title ++ ' ' :: (r.host ++ ' ' :: intRepr r.port))

lemma fold_lines_eq (recs : List RfcRecord) :
    (recs.foldr (fun r acc => intRepr r.rfc ++ ' ' :: r.title ++ ' ' :: r.host ++ ' ' ::
      intRepr r.port ++ CRLF ++ acc) []) ++ CRLF = joinCRLF (recs.map lineOf ++ [[]]) := by
  induction recs with
  | nil => simp [joinCRLF, CRLF]
  | cons r rs ih =>
    simp only [List.foldr_cons, List.map_cons, List.cons_append, joinCRLF_cons]
    rw [← ih]
    simp [lineOf, CRLF, List.append_assoc]

lemma format_resp_eq (code : Int) (recs : List RfcRecord) :
    format_p2s_response code recs =
      joinCRLF (statusLine code :: [] :: recs.map lineOf ++ [[]]) := by
  unfold format_p2s_response
  rw [show (statusLine code :: [] :: recs.map lineOf ++ [[]] : List Str) =
      statusLine code :: ([] :: (recs.map lineOf ++ [[]])) from by simp,
    joinCRLF_cons, joinCRLF_cons, ← fold_lines_eq]
  simp [statusLine, CRLF, List.append_assoc]

lemma phrase_no_cr (code : Int) : ∀ c ∈ STATUS_PHRASES code, ¬ c = '\r' := by
  unfold STATUS_PHRASES
  split
  · decide
  · split
    · decide
    · split
      · decide
      · split
        · decide
        · decide

lemma phrase_ne_nil (code : Int) : STATUS_PHRASES code ≠ [] := by
  unfold STATUS_PHRASES
  split
  · decide
  · split
    · decide
    · split
      · decide
      · split
        · decide
        · decide

lemma phrase_last (code : Int) :
    ∀ c ∈ (STATUS_PHRASES code).reverse.take 1, c.isWhitespace = false := by
  unfold STATUS_PHRASES
  split
  · decide
  · split
    · decide
    · split
      · decide
      · split
        · decide
        · decide

lemma noCR_status (code : Int) : ∀ c ∈ statusLine code, ¬ c = '\r' := by
  intro c hc hcr
  subst hcr
  simp only [statusLine, List.mem_append, List.mem_cons] at hc
  rcases hc with hc | hc | hc | hc | hc
  · exact absurd hc (by decide)
  · exact absurd hc (by decide)
  · exact nonWs_ne_cr (intRepr_nonWs code _ hc) rfl
  · exact absurd hc (by decide)
  · exact phrase_no_cr code _ hc rfl

lemma statusLine_ne_nil (code : Int) : statusLine code ≠ [] := by
  unfold statusLine
  simp [PROTOCOL_VERSION, sl]

lemma strip_status (code : Int) : pyStrip (statusLine code) = statusLine code := by
  apply pyStrip_eq_self_of_ends
  · intro c hc
    unfold statusLine at hc
    rw [List.take_append_of_le_length (by decide)] at hc
    have : PROTOCOL_VERSION.take 1 = ['P'] := by decide
    rw [this] at hc
    simp only [List.mem_singleton] at hc
    rw [hc]
    decide
  · intro c hc
    have hsplit : statusLine code =
        (PROTOCOL_VERSION ++ ' ' :: (intRepr code ++ [' '])) ++ STATUS_PHRASES code := by
      unfold statusLine
      simp [List.append_assoc]
    rw [hsplit, List.reverse_append, List.take_append_of_le_length (by
      have := List.length_pos.mpr (phrase_ne_nil code)
      simp only [List.length_reverse]
      omega)] at hc
    exact phrase_last code c hc

lemma words_status (code : Int) :
    splitWs (statusLine code) =
      PROTOCOL_VERSION :: intRepr code :: splitWs (STATUS_PHRASES code) := by
  unfold statusLine
  rw [splitWs_word_space PROTOCOL_VERSION _ (by decide) (by decide),
    splitWs_word_space (intRepr code) _ (intRepr_ne_nil code) (intRepr_nonWs code)]

/-- A record that survives the response round trip: whitespace-normalized
title, nonempty whitespace-free host. -/
def recOk (r : RfcRecord) : Prop :=
  wordsJoin (splitWs r.title) = r.title ∧ r.host ≠ [] ∧
  ∀ c ∈ r.host, c.isWhitespace = false

instance (r : RfcRecord) : Decidable (recOk r) := by
  unfold recOk
  infer_instance

lemma mem_wordsJoin (ws : List Str) : ∀ c ∈ wordsJoin ws, c = ' ' ∨ ∃ w ∈ ws, c ∈ w := by
  induction ws with
  | nil => intro c hc; exact absurd hc (by simp [wordsJoin])
  | cons w ws' ih =>
    cases ws' with
    | nil =>
      intro c hc
      exact Or.inr ⟨w, by simp, hc⟩
    | cons w2 ws'' =>
      intro c hc
      simp only [wordsJoin] at hc
      rw [List.mem_append] at hc
      rcases hc with hc | hc
      · exact Or.inr ⟨w, by simp, hc⟩
      · rcases List.mem_cons.mp hc with hc | hc
        · exact Or.inl hc
        · rcases ih c hc with h | ⟨w', hw', hcw⟩
          · exact Or.inl h
          · exact Or.inr ⟨w', by simp [hw'], hcw⟩

lemma title_no_cr {r : RfcRecord} (h : recOk r) : ∀ c ∈ r.title, ¬ c = '\r' := by
  intro c hc
  rw [← h.1] at hc
  rcases mem_wordsJoin _ c hc with h' | ⟨w, hw, hcw⟩
  · rw [h']; decide
  · exact nonWs_ne_cr ((splitWs_mem r.title w hw).2 c hcw)

lemma noCR_lineOf {r : RfcRecord} (h : recOk r) : ∀ c ∈ lineOf r, ¬ c = '\r' := by
  intro c hc hcr
  subst hcr
  simp only [lineOf, List.mem_append, List.mem_cons] at hc
  rcases hc with hc | hc | hc | hc | hc | hc | hc
  · exact nonWs_ne_cr (intRepr_nonWs r.rfc _ hc) rfl
  · exact absurd hc (by decide)
  · exact title_no_cr h _ hc rfl
  · exact absurd hc (by decide)
  · exact nonWs_ne_cr (h.2.2 _ hc) rfl
  · exact absurd hc (by decide)
  · exact nonWs_ne_cr (intRepr_nonWs r.port _ hc) rfl

lemma lineOf_ne_nil (r : RfcRecord) : lineOf r ≠ [] := by
  unfold lineOf
  simp [intRepr_ne_nil]

lemma words_lineOf {r : RfcRecord} (h : recOk r) :
    splitWs (lineOf r) =
      intRepr r.rfc :: (splitWs r.title ++ [r.host, intRepr r.port]) := by
  unfold lineOf
  rw [splitWs_word_space (intRepr r.rfc) _ (intRepr_ne_nil _) (intRepr_nonWs _)]
  nth_rewrite 1 [← h.1]
  rw [splitWs_join (splitWs r.title) _ (splitWs_mem r.title),
    splitWs_word_space r.host _ h.2.1 h.2.2,
    splitWs_word_end (intRepr r.port) (intRepr_ne_nil _) (intRepr_nonWs _)]

lemma recordsLoop_cons_ok (line : Str) (rest : List Str) (acc : List RfcRecord)
    (rfc port : Int) (hne : line ≠ []) (hlen : ¬ (splitWs line).length < 3)
    (h1 : pyInt ((splitWs line).headD []) = some rfc)
    (h2 : pyInt ((splitWs line).getLastD []) = some port) :
    recordsLoop (line :: rest) acc = recordsLoop rest (acc ++
      [{ rfc := rfc, title := wordsJoin (((splitWs line).drop 1).dropLast.dropLast),
         host := (splitWs line).dropLast.getLastD [], port := port }]) := by
  simp only [recordsLoop, if_neg hne, if_neg hlen]
  split
  · rename_i rfc' port' e1 e2
    rw [h1] at e1
    rw [h2] at e2
    rw [Option.some.inj e1, Option.some.inj e2]
  · rename_i hcon
    exact (hcon rfc port h1 h2).elim

lemma recordsLoop_blank (rest : List Str) (acc : List RfcRecord) :
    recordsLoop ([] :: rest) acc = .ok acc := by
  simp [recordsLoop]

lemma recordsLoop_format (recs : List RfcRecord) (hok : ∀ r ∈ recs, recOk r) :
    ∀ acc, recordsLoop (recs.map lineOf ++ [[], []]) acc = .ok (acc ++ recs) := by
  induction recs with
  | nil =>
    intro acc
    simp only [List.map_nil, List.nil_append, recordsLoop_blank, List.append_nil]
  | cons r rs ih =>
    intro acc
    have hr := hok r (by simp)
    have hwords := words_lineOf hr
    have hlen : ¬ (splitWs (lineOf r)).length < 3 := by
      rw [hwords]
      simp only [List.length_cons, List.length_append]
      omega
    have h1 : pyInt ((splitWs (lineOf r)).headD []) = some r.rfc := by
      rw [hwords, List.headD_cons]
      exact pyInt_intRepr r.rfc
    have hshape1 : intRepr r.rfc :: (splitWs r.title ++ [r.host, intRepr r.port]) =
        (intRepr r.rfc :: (splitWs r.title ++ [r.host])) ++ [intRepr r.port] := by
      simp
    have h2 : pyInt ((splitWs (lineOf r)).getLastD []) = some r.port := by
      rw [hwords, hshape1, List.getLastD_concat]
      exact pyInt_intRepr r.port
    have hhost : (splitWs (lineOf r)).dropLast.getLastD [] = r.host := by
      rw [hwords, hshape1, List.dropLast_concat]
      rw [show intRepr r.rfc :: (splitWs r.title ++ [r.host]) =
        (intRepr r.rfc :: splitWs r.title) ++ [r.host] from by simp]
      exact List.getLastD_concat _ _ _
    have htitle : wordsJoin (((splitWs (lineOf r)).drop 1).dropLast.dropLast) = r.title := by
      rw [hwords]
      rw [show (intRepr r.rfc :: (splitWs r.title ++ [r.host, intRepr r.port])).drop 1 =
        splitWs r.title ++ [r.host, intRepr r.port] from rfl]
      rw [show splitWs r.title ++ [r.host, intRepr r.port] =
        (splitWs r.title ++ [r.host]) ++ [intRepr r.port] from by simp]
      rw [List.dropLast_concat, List.dropLast_concat]
      exact hr.1
    rw [List.map_cons, List.cons_append,
      recordsLoop_cons_ok _ _ _ r.rfc r.port (lineOf_ne_nil r) hlen h1 h2, hhost, htitle]
    rw [ih (fun x hx => hok x (by simp [hx]))]
    simp

lemma roundtrip_resp (code : Int) (recs : List RfcRecord) (hok : ∀ r ∈ recs, recOk r) :
    parse_p2s_response (format_p2s_response code recs) = .ok (some code, recs) := by
  rw [format_resp_eq]
  have hlines : splitCRLF (joinCRLF (statusLine code :: [] :: recs.map lineOf ++ [[]])) =
      statusLine code :: ([] :: (recs.map lineOf ++ [[], []])) := by
    rw [splitCRLF_joinCRLF _ (by
      intro l hl
      simp only [List.cons_append, List.mem_cons, List.mem_append, List.mem_map] at hl
      rcases hl with h | h | ⟨r, hr, rfl⟩ | h | h
      · rw [h]; exact noCRLF_of_no_cr (noCR_status code)
      · rw [h]; rfl
      · exact noCRLF_of_no_cr (noCR_lineOf (hok r hr))
      · rw [h]; rfl
      · exact absurd h (by simp))]
    simp
  have hidx : ((statusLine code :: ([] :: (recs.map lineOf ++ [[], []]))).findIdx?
      (fun l => l = [])) = some 1 := by
    simp [List.findIdx?_cons, statusLine_ne_nil code]
  unfold parse_p2s_response
  simp only [hlines]
  rw [strip_status]
  rw [if_neg (statusLine_ne_nil code)]
  rw [words_status]
  rw [if_neg (show ¬ (PROTOCOL_VERSION :: intRepr code ::
    splitWs (STATUS_PHRASES code)).length < 2 from by simp)]
  simp only [List.getD_cons_succ, List.getD_cons_zero, pyInt_intRepr, hidx]
  have hdrop : (statusLine code :: ([] :: (recs.map lineOf ++ [[], []]))).drop (1 + 1) =
      recs.map lineOf ++ [[], []] := rfl
  rw [hdrop, recordsLoop_format recs hok []]
  simp

/-- C2 counterexample: a record whose title contains two adjacent internal
spaces does not survive the response round trip — the whitespace split of
the record line collapses the double space, so the reconstructed record list
differs from the formatted one. -/
theorem C2_title_spacing_counterexample :
    parse_p2s_response (format_p2s_response 200
        [{ rfc := 1, title := sl "a  b", host := sl "h", port := 2 }]) =
      .ok (some 200, [{ rfc := 1, title := sl "a b", host := sl "h", port := 2 }]) ∧
    ¬ parse_p2s_response (format_p2s_response 200
        [{ rfc := 1, title := sl "a  b", host := sl "h", port := 2 }]) =
      .ok (some 200, [{ rfc := 1, title := sl "a  b", host := sl "h", port := 2 }]) := by
  decide

/-- C2 amended: requests round trip for hosts and titles that carry no CRLF
pair and no leading or trailing whitespace (with LIST parsing back to the
ALL sentinel and an empty title); responses round trip for every status code
and every record list whose hosts are nonempty and whitespace-free and whose
titles are single-space-separated word sequences — titles with single
internal spaces included. -/
theorem C2_amended_roundtrip :
    (∀ (n : Int) (host : Str) (port : Int) (title : Str),
      pyStrip host = host → noCRLF host = true →
      pyStrip title = title → noCRLF title = true →
      parse_p2s_request (format_p2s_request METHOD_ADD (.intVal n) host port title) =
        some { method := METHOD_ADD, rfc_number := .intVal n,
               version := PROTOCOL_VERSION, host := host, port := port,
               title := title } ∧
      parse_p2s_request (format_p2s_request METHOD_LOOKUP (.intVal n) host port title) =
        some { method := METHOD_LOOKUP, rfc_number := .intVal n,
               version := PROTOCOL_VERSION, host := host, port := port,
               title := title }) ∧
    (∀ (rfc : RfcNumber) (host : Str) (port : Int) (title : Str),
      pyStrip host = host → noCRLF host = true →
      parse_p2s_request (format_p2s_request METHOD_LIST rfc host port title) =
        some { method := METHOD_LIST, rfc_number := .strVal RFC_ALL,
               version := PROTOCOL_VERSION, host := host, port := port,
               title := [] }) ∧
    (∀ (code : Int) (recs : List RfcRecord), (∀ r ∈ recs, recOk r) →
      parse_p2s_response (format_p2s_response code recs) = .ok (some code, recs)) := by
  refine ⟨?_, ?_, ?_⟩
  · intro n host port title hh1 hh2 ht1 ht2
    exact ⟨roundtrip_req4 METHOD_ADD (Or.inl rfl) n host hh1 hh2 port title ht1 ht2,
           roundtrip_req4 METHOD_LOOKUP (Or.inr rfl) n host hh1 hh2 port title ht1 ht2⟩
  · intro rfc host port title hh1 hh2
    exact roundtrip_reqList rfc host hh1 hh2 port title
  · intro code recs hok
    exact roundtrip_resp code recs hok

/-- Witness for C2: a concrete ADD request and a concrete 200 response both
round trip. -/
theorem C2_amended_witness :
    parse_p2s_request (format_p2s_request METHOD_ADD (.intVal 123)
        (sl "h.example.com") 5678 (sl "A Test RFC")) =
      some { method := METHOD_ADD, rfc_number := .intVal 123,
             version := PROTOCOL_VERSION, host := sl "h.example.com", port := 5678,
             title := sl "A Test RFC" } ∧
    parse_p2s_response (format_p2s_response 200
        [{ rfc := 123, title := sl "Test RFC", host := sl "h1", port := 5001 }]) =
      .ok (some 200,
        [{ rfc := 123, title := sl "Test RFC", host := sl "h1", port := 5001 }]) :=
  ⟨(C2_amended_roundtrip.1 123 (sl "h.example.com") 5678 (sl "A Test RFC")
      (by decide) (by decide) (by decide) (by decide)).1,
   C2_amended_roundtrip.2.2 200
     [{ rfc := 123, title := sl "Test RFC", host := sl "h1", port := 5001 }]
     (by decide)⟩
